import Mathlib

/-!
Verification development for the xmodel field/structure/model resolution engine.

The definitions below are a shallow embedding of the Python source:

* `src/xmodel/base/model.py` — attribute write interception (`BaseModel.__setattr__`),
  attribute read fallback (`BaseModel.__getattr__`), default resolution
  (`_get_default_value_from_field`), identity equality (`BaseModel.__eq__`).
* `src/xmodel/base/api.py` — export (`BaseApi.json`, `set_value_into_json_dict`,
  `fields_to_pop_for_json`, `should_include_field_in_json`, `_get_old_json_value`)
  and import (`BaseApi.update_from_json`).
* `src/xmodel/base/fields.py` — `Field.resolve_defaults` (the explicitly-set
  tracking / parent-copy portion) and `Converter` machinery.
* `src/xmodel/converters.py` — `ConvertBasicType.__call__`,
  `ConvertBasicInt.convert_basic_value`, `ConvertBasicType.convert_basic_value`.
* `src/xmodel/_private/api/state.py` — `PrivateApiState` (pending related ids).

The embedded value space covers the documents the verified claims are about:
None, the Null sentinel, ints, strings, bools, lists, sets, dicts and related
model instances carrying their declared type and id value.  Python dicts are
modelled as insertion-ordered association lists with unique keys.
-/

namespace Xm

/-- Python run-time values as they flow through the model/serialization engine.
`none` is Python `None`, `null` is the xsentinels `Null` sentinel.  A `model`
value is a related `BaseModel` instance: it carries its model-type name,
whether that type has an id field, and the value of its `id` attribute
(`PyVal.none` when the id is unset). -/
inductive PyVal where
  | none : PyVal
  | null : PyVal
  | int (n : Int) : PyVal
  | str (s : String) : PyVal
  | bool (b : Bool) : PyVal
  | list (xs : List PyVal) : PyVal
  | set (xs : List PyVal) : PyVal
  | dict (entries : List (String × PyVal)) : PyVal
  | model (tyName : String) (hasId : Bool) (idv : PyVal) : PyVal
deriving Repr

/-- Python run-time types, the result of `type(value)`. -/
inductive PyTy where
  | noneTy | nullTy | intTy | strTy | boolTy | listTy | setTy | dictTy
  | modelTy (tyName : String)
deriving DecidableEq, Repr

/-- Python `value is None` (identity test against the `None` singleton). -/
def PyVal.isNone : PyVal → Bool
  | .none => true
  | _ => false

/-- Python `value is Null` (identity test against the `Null` singleton). -/
def PyVal.isNull : PyVal → Bool
  | .null => true
  | _ => false

/-- Python `type(value) is set`. -/
def PyVal.isSet : PyVal → Bool
  | .set _ => true
  | _ => false

/-- `type(value)` for embedded values. -/
def PyVal.typeOf : PyVal → PyTy
  | .none => .noneTy
  | .null => .nullTy
  | .int _ => .intTy
  | .str _ => .strTy
  | .bool _ => .boolTy
  | .list _ => .listTy
  | .set _ => .setTy
  | .dict _ => .dictTy
  | .model tyName _ _ => .modelTy tyName

/-- A Python dict with string keys: insertion-ordered association list,
keys unique by construction. -/
abbrev Doc := List (String × PyVal)

/-- Dict lookup: `d.get(k)` / `d[k]`. -/
def dget? (d : Doc) (k : String) : Option PyVal :=
  match d.find? (fun kv => kv.1 == k) with
  | some kv => some kv.2
  | Option.none => Option.none

/-- `k in d` for a Python dict. -/
def dhas (d : Doc) (k : String) : Bool :=
  (dget? d k).isSome

/-- Dict store `d[k] = v`: replaces in place when the key exists (keeping its
position, as CPython dicts do), otherwise appends. -/
def dset (d : Doc) (k : String) (v : PyVal) : Doc :=
  match d with
  | [] => [(k, v)]
  | kv :: rest => if kv.1 == k then (k, v) :: rest else kv :: dset rest k v

/-- Dict delete `del d[k]` (no error when absent; callers only delete present keys). -/
def ddel (d : Doc) (k : String) : Doc :=
  match d with
  | [] => []
  | kv :: rest => if kv.1 == k then rest else kv :: ddel rest k

/-- Python `{**a, **b}`: keys of `a` in order (values overridden by `b`),
followed by keys only in `b`, in `b`'s order. -/
def dmerge (a b : Doc) : Doc :=
  b.foldl (fun acc kv => dset acc kv.1 kv.2) a

/-- The keys of an embedded dict, in order. -/
def dkeys (d : Doc) : List String :=
  d.map Prod.fst

/-- Well-formedness of an embedded dict: unique keys (CPython dicts cannot
hold duplicates). -/
def keysNodup (d : Doc) : Prop :=
  (dkeys d).Nodup

/-- One character list is a prefix of another (helper for the `str` method
embeddings below). -/
def charsStart : List Char → List Char → Bool
  | _, [] => true
  | [], _ :: _ => false
  | c :: cs, p :: ps => c == p && charsStart cs ps

/-- Python `s.startswith(p)`, over the underlying character lists. -/
def strStarts (s p : String) : Bool :=
  charsStart s.data p.data

/-- Python `s.endswith(p)`, over the underlying character lists. -/
def strEnds (s p : String) : Bool :=
  charsStart s.data.reverse p.data.reverse

/-- Python `s[:-n]` for `0 < n ≤ len(s)` (and `s[:0]` when `n` covers the
whole string). -/
def strDropRight (s : String) (n : Nat) : String :=
  ⟨s.data.take (s.data.length - n)⟩

/-- Worker for `strSplitOn`: scan the character list, breaking at each
occurrence of the (non-empty) separator.  The `Nat` budget is the length of
the scanned list; a match consumes at least one character, so the budget is
never exhausted. -/
def splitChars (sep : List Char) : Nat → List Char → List Char → List (List Char)
  | _, [], acc => [acc.reverse]
  | 0, rest, acc => [acc.reverse ++ rest]
  | Nat.succ fuel, c :: cs, acc =>
    if charsStart (c :: cs) sep then
      acc.reverse :: splitChars sep fuel ((c :: cs).drop sep.length) []
    else
      splitChars sep fuel cs (c :: acc)

/-- Python `s.split(sep)` for a non-empty separator (the separators used by
the embedded fields are never empty; an empty one raises in Python). -/
def strSplitOn (s sep : String) : List String :=
  if sep.data.isEmpty then [s]
  else (splitChars sep.data s.data.length s.data []).map (fun cs => ⟨cs⟩)

mutual

/-- Structural size of an embedded value, used to supply the recursion
budget of `pyEq`. -/
def pyValSize : PyVal → Nat
  | .list xs => 1 + pyValListSize xs
  | .set xs => 1 + pyValListSize xs
  | .dict es => 1 + pyValDictSize es
  | .model _ _ idv => 1 + pyValSize idv
  | _ => 1

/-- Structural size of a list of embedded values. -/
def pyValListSize : List PyVal → Nat
  | [] => 1
  | x :: xs => 1 + pyValSize x + pyValListSize xs

/-- Structural size of an embedded dict's entry list. -/
def pyValDictSize : List (String × PyVal) → Nat
  | [] => 1
  | (_, v) :: es => 1 + pyValSize v + pyValDictSize es

end

mutual

/-- Python `==` on embedded values.  Scalars compare by value (`True == 1`
holds in Python), lists elementwise in order, sets by mutual membership,
dicts by key set and per-key value equality.  `BaseModel.__eq__` is identity
based (see `baseModelEq`); stored occurrences of model values carry no
identity here, so they are never considered `==` (no verified statement
compares model values).  The `Nat` argument is a recursion budget for the
mutual descent; every recursive call is issued on structurally smaller
arguments, so the budget `pyEq` supplies (one more than the combined
structural size) is never exhausted. -/
def pyEqF : Nat → PyVal → PyVal → Bool
  | 0, _, _ => false
  | Nat.succ fuel, a, b =>
    match a, b with
    | .none, .none => true
    | .null, .null => true
    | .int n, .int m => n == m
    | .int n, .bool c => n == (if c then 1 else 0)
    | .bool c, .int n => (if c then (1 : Int) else 0) == n
    | .bool c, .bool d => c == d
    | .str s, .str t => s == t
    | .list xs, .list ys => pyEqListF fuel xs ys
    | .set xs, .set ys => pyEqSubsetF fuel xs ys && pyEqSubsetF fuel ys xs
    | .dict xs, .dict ys => xs.length == ys.length && pyEqDictInclF fuel xs ys
    | _, _ => false

/-- Elementwise Python `==` for lists. -/
def pyEqListF : Nat → List PyVal → List PyVal → Bool
  | 0, _, _ => false
  | Nat.succ fuel, xs, ys =>
    match xs, ys with
    | [], [] => true
    | x :: xs2, y :: ys2 => pyEqF fuel x y && pyEqListF fuel xs2 ys2
    | _, _ => false

/-- Python set membership via `==`. -/
def pyEqMemF : Nat → PyVal → List PyVal → Bool
  | 0, _, _ => false
  | Nat.succ fuel, x, ys =>
    match ys with
    | [] => false
    | y :: ys2 => pyEqF fuel x y || pyEqMemF fuel x ys2

/-- Every element of the first set is `==` to some element of the second. -/
def pyEqSubsetF : Nat → List PyVal → List PyVal → Bool
  | 0, _, _ => false
  | Nat.succ fuel, xs, ys =>
    match xs with
    | [] => true
    | x :: xs2 => pyEqMemF fuel x ys && pyEqSubsetF fuel xs2 ys

/-- Every entry of the first dict is matched by an equal entry in the second. -/
def pyEqDictInclF : Nat → List (String × PyVal) → List (String × PyVal) → Bool
  | 0, _, _ => false
  | Nat.succ fuel, xs, ys =>
    match xs with
    | [] => true
    | (k, v) :: xs2 => pyEqFindF fuel k ys v && pyEqDictInclF fuel xs2 ys

/-- Lookup `k` in an entry list and compare the found value with `v`. -/
def pyEqFindF : Nat → String → List (String × PyVal) → PyVal → Bool
  | 0, _, _, _ => false
  | Nat.succ fuel, k, ys, v =>
    match ys with
    | [] => false
    | (k2, v2) :: ys2 => if k2 == k then pyEqF fuel v v2 else pyEqFindF fuel k ys2 v

end

/-- Python `==`, with an always-sufficient recursion budget. -/
def pyEq (a b : PyVal) : Bool :=
  pyEqF (pyValSize a + pyValSize b + 1) a b

/-- Declared field types, after `Field.__post_init__` has unwrapped the
optional/nullable wrapper (`unwrap_optional_type`): `tint`/`tstr`/`tbool`
are the plain `int`/`str`/`bool` annotations, `tdict` covers `dict` and
`JsonDict`, `tlistRaw`/`tsetRaw` the bare `list`/`set` types,
`tlistOf`/`tsetOf` the generic `List[T]`/`Set[T]` annotations (whose
`typing_inspect.get_origin` is `list`/`set`), `tnull` the bare `NullType`,
and `tmodel` a `BaseModel` subclass named by its type name. -/
inductive THint where
  | tint | tstr | tbool | tdict | tlistRaw | tsetRaw
  | tlistOf (inner : THint) | tsetOf (inner : THint)
  | tnull
  | tmodel (tyName : String)
deriving DecidableEq, Repr

/-- Python `type(value) is type_hint` for the embedded hints (a generic
annotation such as `Set[int]` is a `typing` object, never the runtime type
of a value, so `tlistOf`/`tsetOf` match nothing here). -/
def typeIsHint : PyTy → THint → Bool
  | .intTy, .tint => true
  | .strTy, .tstr => true
  | .boolTy, .tbool => true
  | .dictTy, .tdict => true
  | .listTy, .tlistRaw => true
  | .setTy, .tsetRaw => true
  | .nullTy, .tnull => true
  | .modelTy n, .tmodel m => n == m
  | _, _ => false

/-- `typing_inspect.get_origin(type_hint)` restricted to the embedded
hints: the runtime container type of a generic annotation. -/
def hintOrigin : THint → Option PyTy
  | .tlistOf _ => some .listTy
  | .tsetOf _ => some .setTy
  | _ => Option.none

/-- Element hint of a generic container annotation
(`typing_inspect.get_args(type_hint)[0]`). -/
def hintInner : THint → Option THint
  | .tlistOf t => some t
  | .tsetOf t => some t
  | _ => Option.none

/-- Errors surfaced by the embedded engine.  `xModelError` is
`xmodel.errors.XModelError`, `attributeError` the `AttributeError` raised on
type mismatches / unknown attributes, `valueError` a Python `ValueError`
(e.g. from `int('x')`), `typeError` a Python `TypeError`,
`notImplementedError` the explicit not-yet-supported failures.
`notEmbedded` marks source behaviour outside this embedding (external
`get_via_id` fetches, construction of embedded child models); no verified
statement depends on those paths.  `fuelExhausted` is the recursion budget
of the embedding itself, never reached at the depths used here. -/
inductive PyErr where
  | xModelError (msg : String)
  | attributeError (msg : String)
  | valueError (msg : String)
  | typeError (msg : String)
  | notImplementedError (msg : String)
  | notEmbedded (msg : String)
  | fuelExhausted
deriving DecidableEq, Repr

/-- `Converter.Direction` from `xmodel/base/fields.py` (`to_json`,
`from_json`, `to_model`). -/
inductive Direction where
  | to_json | from_json | to_model
deriving DecidableEq, Repr

/-- The concrete default converters of `xmodel/converters.py` that act on
the embedded value space: `ConvertBasicInt()` and
`ConvertBasicType(basic_type=str)`.  (The date/datetime/Decimal/float/bool
converters act on values outside the embedded document space.) -/
inductive ConvKind where
  | basicInt | basicStr
deriving DecidableEq, Repr

/-- Python `str(value)` for the scalar values that reach
`ConvertBasicType.convert_basic_value` in the verified statements. -/
def pyStrOf : PyVal → Except PyErr String
  | .str s => .ok s
  | .int n => .ok (toString n)
  | .bool b => .ok (if b then "True" else "False")
  | _ => .error (.notEmbedded "str() on a non-scalar value")

/-- Python `int(value)`: ints pass through, booleans map to 0/1, strings are
parsed (raising `ValueError` when not a numeral), anything else is a
`TypeError`. -/
def pyIntOf : PyVal → Except PyErr Int
  | .int n => .ok n
  | .bool b => .ok (if b then 1 else 0)
  | .str s =>
    match s.trim.toInt? with
    | some n => .ok n
    | Option.none => .error (.valueError "invalid literal for int()")
  | _ => .error (.typeError "int() argument")

/-- `ConvertBasicType.convert_basic_value` (converters.py lines 95-103) and
the `ConvertBasicInt.convert_basic_value` override (lines 138-143): the int
converter first turns a blank string into the zero int, then the base
implementation passes `Null` through, passes an already-typed value through,
and otherwise applies the basic type constructor. -/
def convert_basic_value (k : ConvKind) (v : PyVal) : Except PyErr PyVal :=
  match k, v with
  | .basicInt, .str s =>
    if s.isEmpty then .ok (.int 0)
    else do
      let n ← pyIntOf (.str s)
      .ok (.int n)
  | .basicInt, .null => .ok .null
  | .basicInt, v =>
    if v.typeOf = .intTy then .ok v
    else do
      let n ← pyIntOf v
      .ok (.int n)
  | .basicStr, .null => .ok .null
  | .basicStr, v =>
    if v.typeOf = .strTy then .ok v
    else do
      let s ← pyStrOf v
      .ok (.str s)

/-- `ConvertBasicType.__call__` (converters.py lines 105-121): for a
nullable field converting `from_json`, `None` and `Null` become `Null`;
`None` otherwise passes through; lists are converted elementwise; other
values go through `convert_basic_value`.  (`value in (None, Null)` tests
equality against the two singletons, which for embedded values holds
exactly for `None` and `Null` themselves.) -/
def convert_basic_call (k : ConvKind) (nullable : Bool) (dir : Direction)
    (v : PyVal) : Except PyErr PyVal :=
  if (v.isNone || v.isNull) && dir = .from_json && nullable then .ok .null
  else if v.isNone then .ok .none
  else
    match v with
    | .list xs => do
      let ys ← xs.mapM (convert_basic_value k)
      .ok (.list ys)
    | v => convert_basic_value k v

/-- Dispatch a field's converter.  In the embedding every converter is one
of the basic converters, so `Converter.__call__` routes every direction to
the same conversion with the `from_json` null handling of
`ConvertBasicType.__call__`. -/
def converterCall (k : ConvKind) (nullable : Bool) (dir : Direction)
    (v : PyVal) : Except PyErr PyVal :=
  convert_basic_call k nullable dir v

/-- `BaseApi.default_converters` (`xmodel/converters.py DEFAULT_CONVERTERS`)
restricted to the embedded hints: `int` and `str` have registered basic
converters; generic/container/model hints have none. -/
def defaultConverters : THint → Option ConvKind
  | .tint => some .basicInt
  | .tstr => some .basicStr
  | _ => Option.none

/-- The related-type information a `Field` carries: the related model-type
name, whether `related_type.api.structure.has_id_field()` holds, and the
converter of the related type's `id` field (used by
`PrivateApiState.set_related_field_id`). -/
structure RelTy where
  tyName : String
  hasId : Bool
  idConverter : Option ConvKind := Option.none
deriving DecidableEq, Repr

/-- A resolved `xmodel.base.fields.Field` as used by the model runtime and
the serialization engine, restricted to fields without getter/setter
overrides and without post-filters (none of the verified statements involve
those).  `default` is `Field.default` with `Option.none` standing for the
Python `None` resolved default (no default). -/
structure FieldE where
  name : String
  type_hint : THint
  nullable : Bool := false
  read_only : Bool := false
  json_path : String
  json_path_separator : String := "."
  include_with_fields : List String := []
  converter : Option ConvKind := Option.none
  defaultVal : Option PyVal := Option.none
  related_type : Option RelTy := Option.none
deriving Repr

/-- A model class structure: the resolved field list in declaration order
(`BaseStructure.fields`). -/
abbrev Structure := List FieldE

/-- `BaseStructure.get_field`. -/
def get_field (cfg : Structure) (name : String) : Option FieldE :=
  cfg.find? (fun f => f.name == name)

/-- `BaseStructure.is_field_a_child` (structure.py lines 454-482). -/
def is_field_a_child (cfg : Structure) (name : String) (and_has_id : Bool) : Bool :=
  match get_field cfg name with
  | Option.none => false
  | some f =>
    match f.related_type with
    | Option.none => false
    | some r => !(and_has_id && !r.hasId)

/-- The per-instance runtime state: the materialized field attributes of the
instance (`model.__dict__` restricted to field names),
`PrivateApiState.last_original_update_json` and
`PrivateApiState.related_field_id_area`. -/
structure ModelState where
  attrs : Doc := []
  lastOriginalUpdateJson : Option Doc := Option.none
  relatedFieldIdArea : Doc := []
deriving Repr

/-- `PrivateApiState.reset_related_field_id_if_exists` (state.py lines 58-60). -/
def reset_related_field_id_if_exists (st : ModelState) (name : String) : ModelState :=
  if dhas st.relatedFieldIdArea name then
    { st with relatedFieldIdArea := ddel st.relatedFieldIdArea name }
  else st

/-- `Field.related_type` looked up through the structure. -/
def related_ty (cfg : Structure) (name : String) : Option RelTy :=
  (get_field cfg name).bind (fun f => f.related_type)

/-- Result of `BaseApi.get_child_without_lazy_lookup`: either the Python
`False` sentinel (attribute not set and `false_if_not_set` requested) or the
value currently stored on the attribute (`.stored PyVal.none` doubles as the
"nothing set" `None` result). -/
inductive ChildVal where
  | pyFalse
  | stored (v : PyVal)
deriving Repr

/-- `BaseApi.get_child_without_lazy_lookup` (api.py lines 473-507): errors
when the field is not a child field; returns the stored attribute value when
the attribute is materialized in `model.__dict__`; otherwise `False` or
`None` depending on `false_if_not_set`. -/
def get_child_without_lazy_lookup (cfg : Structure) (st : ModelState)
    (name : String) (false_if_not_set : Bool) : Except PyErr ChildVal :=
  if !is_field_a_child cfg name false then
    .error (.xModelError "field is NOT a child field on model")
  else
    match dget? st.attrs name with
    | some v => .ok (.stored v)
    | Option.none => .ok (if false_if_not_set then .pyFalse else .stored .none)

/-- `child.id` on a stored child value: the id attribute of a related model
instance (`PyVal.none` when unset). -/
def child_id_of : PyVal → Except PyErr PyVal
  | .model _ _ idv => .ok idv
  | _ => .error (.attributeError "id")

/-- `PrivateApiState.get_related_field_id` (state.py lines 62-94). -/
def get_related_field_id (cfg : Structure) (st : ModelState) (name : String)
    (return_false_if_child_set : Bool) : Except PyErr PyVal := do
  if !is_field_a_child cfg name true then
    .error (.xModelError "field is not a child with a defined id")
  else do
    let child ← get_child_without_lazy_lookup cfg st name false
    match child with
    | .pyFalse => .ok ((dget? st.relatedFieldIdArea name).getD .none)
    | .stored v =>
      if return_false_if_child_set && !v.isNone then .ok (.bool false)
      else if v.isNull then .ok .null
      else if !v.isNone then child_id_of v
      else .ok ((dget? st.relatedFieldIdArea name).getD .none)

/-- `convert_id` inside `PrivateApiState.set_related_field_id` (state.py
lines 137-139): the incoming id value converted with the related type's `id`
field converter, direction `to_model`. -/
def convert_id_value (r : RelTy) (v : PyVal) : Except PyErr PyVal :=
  match r.idConverter with
  | some c => converterCall c false .to_model v
  | Option.none => .error (.notEmbedded "related id field without embedded converter")

/-- Python falsiness of an empty string (`not value` for a `str`). -/
def pyFalsyStr : PyVal → Bool
  | .str s => s.isEmpty
  | _ => false

/-- The placeholder-string scrub of `BaseModel.__setattr__` (model.py lines
545-549): a string starting with nine hash marks becomes the empty
string. -/
def scrub_placeholder : PyVal → PyVal
  | .str s => if strStarts s "#########" then .str "" else .str s
  | v => v

/-- `_get_default_value_from_field` (model.py lines 674-724), restricted to
plain-value defaults (callable defaults and `BaseModel`-instance defaults
produce fresh values/copies per call and lie outside the embedded value
space; no verified statement uses them). -/
def get_default_value_from_field (field? : Option FieldE) : Except PyErr PyVal :=
  match field? with
  | Option.none => .ok .none
  | some field =>
    match field.defaultVal with
    | Option.none => .ok .none
    | some dflt =>
      if dflt.isNull then
        if !field.nullable then
          .error (.xModelError "Default for field is Null but field is not Nullable")
        else .ok .null
      else
        if typeIsHint dflt.typeOf field.type_hint
            || (hintOrigin field.type_hint).any (fun t => dflt.typeOf = t) then
          .ok dflt
        else
          match field.converter with
          | Option.none => .error (.xModelError "default type mismatch and no converter")
          | some c => converterCall c field.nullable .to_model dflt

/-- `loop(value)` (xloop) over an embedded value: iterates list/set
elements, yields nothing for `None`, wraps any other value as a single
element. -/
def loopVals : PyVal → List PyVal
  | .list xs => xs
  | .set xs => xs
  | .none => []
  | v => [v]

mutual

/-- `BaseModel.__setattr__` (model.py lines 396-565) for an instance-level
write of a field attribute (the class-level, `api` and `_`-prefixed
branches do not apply to the embedded writes).  The embedded fields have no
post-filter and no setter/getter overrides, and `Field.type_hint` is
already unwrapped of Null/None so no union hints arise.  The first `Nat`
argument is a recursion budget for the mutual recursion with
`set_related_field_id` (a Null write issued by `set_related_field_id`
re-enters `__setattr__`). -/
def setattrModel : Nat → Structure → ModelState → String → PyVal →
    Except PyErr ModelState
  | 0, _, _, _, _ => .error .fuelExhausted
  | Nat.succ fuel, cfg, st, name, value =>
    if strEnds name "_id" && is_field_a_child cfg (strDropRight name 3) true then
      set_related_field_id fuel cfg st (strDropRight name 3) value
    else
      match get_field cfg name with
      | Option.none => .ok { st with attrs := dset st.attrs name value }
      | some field => do
        let type_hint := field.type_hint
        let value_type := value.typeOf
        let (st, value) ←
          if field.nullable && type_hint ≠ THint.tstr && value_type = PyTy.strTy
              && pyFalsyStr value then
            pure (st, PyVal.null)
          else if value.isNone then do
            let d ← get_default_value_from_field (some field)
            pure (st, d)
          else if typeIsHint value_type type_hint
              || (type_hint = THint.tnull && field.nullable) then
            pure (reset_related_field_id_if_exists st name, value)
          else if value.isNull then
            -- The source constructs `XModelError(...)` here WITHOUT raising
            -- it (model.py lines 472-478); control falls through and the
            -- Null value is stored on the instance below.
            pure (st, value)
          else
            match field.converter with
            | some c => do
              let v ← converterCall c field.nullable .to_model value
              pure (st, v)
            | Option.none =>
              if type_hint = THint.tdict && value_type = PyTy.dictTy then
                pure (st, value)
              else if type_hint = THint.tdict
                  && (value_type = PyTy.intTy || value_type = PyTy.boolTy
                      || value_type = PyTy.strTy) then
                -- logged warning, then the value is an empty dict
                pure (st, PyVal.dict [])
              else
                match hintOrigin type_hint with
                | some containerTy => do
                  let inner := (hintInner type_hint).getD THint.tint
                  match defaultConverters inner with
                  | some conv => do
                    let converted ← (loopVals value).mapM
                      (fun x => converterCall conv field.nullable .to_model x)
                    -- container_type(converted_values); Python set() would
                    -- deduplicate by ==, which no verified statement relies on
                    pure (st, if containerTy = PyTy.setTy then PyVal.set converted
                              else PyVal.list converted)
                  | Option.none => pure (st, value)
                | Option.none =>
                  Except.error (.attributeError "cannot auto-convert value to type-hint")
        let value := scrub_placeholder value
        .ok { st with attrs := dset st.attrs name value }

/-- `PrivateApiState.set_related_field_id` (state.py lines 96-165). -/
def set_related_field_id : Nat → Structure → ModelState → String → PyVal →
    Except PyErr ModelState
  | 0, _, _, _, _ => .error .fuelExhausted
  | Nat.succ fuel, cfg, st, name, value => do
    if !is_field_a_child cfg name true then
      .error (.xModelError "field is not a child with a defined id")
    else do
      let child ← get_child_without_lazy_lookup cfg st name true
      let relTy := (related_ty cfg name).getD { tyName := "", hasId := true }
      let have_child_obj :=
        match child with
        | .pyFalse => false
        | .stored v => !(v.isNone || v.isNull)
      if have_child_obj && !value.isNull then do
        let cid ← match child with
          | .stored v => child_id_of v
          | .pyFalse => .error (.attributeError "id")
        let converted ← convert_id_value relTy value
        if pyEq cid converted then
          .ok st
        else
          set_related_store fuel cfg st name value child
      else if (match child with | .stored v => v.isNull | _ => false) && value.isNull then
        .ok st
      else if have_child_obj && value.isNull then do
        -- only nullify when the child has an id field and a non-None id
        let childHasId := match child with
          | .stored (.model _ hasId _) => hasId
          | _ => false
        let cid ← match child with
          | .stored v => child_id_of v
          | .pyFalse => .error (.attributeError "id")
        if childHasId && !cid.isNone then
          setattrModel fuel cfg st name .null
        else
          .ok st
      else if value.isNull then
        setattrModel fuel cfg st name .null
      else
        set_related_store fuel cfg st name value child

/-- The tail of `set_related_field_id` (state.py lines 160-165): delete a
materialized attribute so it is lazily re-resolved, then record the id in
the related-id storage area. -/
def set_related_store : Nat → Structure → ModelState → String → PyVal →
    ChildVal → Except PyErr ModelState
  | _, _, st, name, value, child =>
    let st :=
      match child with
      | .pyFalse => st
      | .stored _ => { st with attrs := ddel st.attrs name }
    .ok { st with relatedFieldIdArea := dset st.relatedFieldIdArea name value }

end

/-- `BaseModel.__getattr__` (model.py lines 567-642), which Python invokes
only when the attribute is not materialized; the embedded wrapper first
checks `model.__dict__` the way plain attribute access does.  The embedded
fields have no `fget` override.  A stored pending `Null` id sets a local
`obj = Null` that the source never returns, so control reaches the default
lookup below it.  The materialization side effect of a default read (the
computed value is stored on the instance before returning) is omitted; it
does not change the value produced by any verified statement. -/
def getattrFallback (cfg : Structure) (st : ModelState) (name : String) :
    Except PyErr PyVal :=
  match get_field cfg name with
  | Option.none => .error (.attributeError name)
  | some field =>
    match field.related_type with
    | some r =>
      if r.hasId then
        match dget? st.relatedFieldIdArea name with
        | some v =>
          if v.isNull then get_default_value_from_field (some field)
          else .error (.notEmbedded "lazy fetch via get_via_id (external collaborator)")
        | Option.none => get_default_value_from_field (some field)
      else get_default_value_from_field (some field)
    | Option.none => get_default_value_from_field (some field)

/-- Attribute read on a model instance: the materialized value when present,
otherwise the `__getattr__` fallback, including the virtual `{base}_id`
read (model.py lines 585-592). -/
def getattrModel (cfg : Structure) (st : ModelState) (name : String) :
    Except PyErr PyVal :=
  match dget? st.attrs name with
  | some v => .ok v
  | Option.none =>
    if strEnds name "_id" && is_field_a_child cfg (strDropRight name 3) true then
      match get_related_field_id cfg st (strDropRight name 3) false with
      | .error e => .error e
      | .ok v => if !v.isNone then .ok v else getattrFallback cfg st name
    else getattrFallback cfg st name

/-- `set_value_into_json_dict` (api.py lines 579-583): skip `None` values
entirely; store `Null` as the JSON null (Python `None`); store anything else
as-is. -/
def set_value_into_json_dict (v : PyVal) (k : String) (d : Doc) : Doc :=
  match v with
  | .none => d
  | .null => dset d k .none
  | v => dset d k v

/-- The nested placement of pass 2 of `BaseApi.json` (api.py lines 677-684):
walk `json_path`, creating intermediate dicts via `setdefault`, then place
the value at the final segment.  When an intermediate key holds a non-dict
value the source fails on the next subscript; the embedding reports that
failure at the descent (no verified statement reaches that case). -/
def set_into_path : Doc → List String → PyVal → Except PyErr Doc
  | d, [], _ => .ok d
  | d, [last], v => .ok (set_value_into_json_dict v last d)
  | d, name :: rest, v => do
    let sub ←
      match dget? d name with
      | some (.dict e) => Except.ok e
      | some _ => Except.error (.typeError "path segment holds a non-dict value")
      | Option.none => Except.ok ([] : Doc)
    let sub2 ← set_into_path sub rest v
    .ok (dset d name (.dict sub2))

/-- The `str`/`int` coercion attempt of `_get_old_json_value`
(`old_value = as_type(old_value)`).  Of the source's compatible set
`(str, int, float)` only `str` and `int` produce values in the embedded
document space. -/
def str_compatible (t : PyTy) : Bool :=
  t = .strTy || t = .intTy

/-- `as_type(old_value)` for the compatible types: `int(...)` may raise
`ValueError` on a non-numeral string, `str(...)` always succeeds. -/
def py_cast (asTy : PyTy) (v : PyVal) : Except PyErr PyVal :=
  match asTy with
  | .intTy => do
    let n ← pyIntOf v
    .ok (.int n)
  | .strTy => do
    let s ← pyStrOf v
    .ok (.str s)
  | _ => .error (.typeError "unsupported cast")

/-- `BaseApi._get_old_json_value` (api.py lines 809-843).  `Option.none`
plays the role of the `Default` sentinel: no original value exists for the
key.  When the stored and new types differ and both are str/int compatible,
the old value is converted to the new value's type, falling back to the raw
stored value when the conversion raises `ValueError`. -/
def get_old_json_value (st : ModelState) (field : String) (asTy : PyTy) :
    Option PyVal :=
  match st.lastOriginalUpdateJson with
  | Option.none => Option.none
  | some orig =>
    match dget? orig field with
    | Option.none => Option.none
    | some old =>
      let oldTy := old.typeOf
      if asTy ≠ oldTy ∧ str_compatible asTy ∧ str_compatible oldTy then
        match py_cast asTy old with
        | .ok v => some v
        | .error _ => some ((dget? orig field).getD .none)
      else some old

/-- `BaseApi.should_include_field_in_json` (api.py lines 780-807): coerce an
old list to a set when the new value is a set, then keep the field exactly
when `new_value != old_value`. -/
def should_include_field_in_json (new_value old_value : PyVal) : Bool :=
  let old_value :=
    match new_value, old_value with
    | .set _, .list ys => PyVal.set ys
    | _, old => old
  !pyEq new_value old_value

/-- The first loop of `BaseApi.fields_to_pop_for_json` (api.py lines
736-761): mark every top-level key whose (coerced) old value equals its new
value for removal; keys with no original value are always kept. -/
def fields_to_pop_diff (st : ModelState) : Doc → List String → List String
  | [], pop => pop
  | kv :: rest, pop =>
    match get_old_json_value st kv.1 kv.2.typeOf with
    | Option.none => fields_to_pop_diff st rest pop
    | some old =>
      if should_include_field_in_json kv.2 old then fields_to_pop_diff st rest pop
      else fields_to_pop_diff st rest (pop ++ [kv.1])

/-- The second loop of `BaseApi.fields_to_pop_for_json` (api.py lines
770-776): a single pass over the declared fields, in declaration order,
un-marking a marked field when not all of its `include_with_fields` are
themselves still marked at that moment. -/
def fields_to_pop_include_pass : List FieldE → List String → List String
  | [], pop => pop
  | f :: rest, pop =>
    if f.include_with_fields.isEmpty then fields_to_pop_include_pass rest pop
    else if !pop.contains f.name then fields_to_pop_include_pass rest pop
    else if !(f.include_with_fields.all pop.contains) then
      fields_to_pop_include_pass rest (pop.erase f.name)
    else fields_to_pop_include_pass rest pop

/-- `BaseApi.fields_to_pop_for_json` (api.py lines 722-778): the diff loop
followed by the include-with-fields pass. -/
def fields_to_pop_for_json (st : ModelState) (json : Doc)
    (field_objs : Structure) : List String :=
  fields_to_pop_include_pass field_objs (fields_to_pop_diff st json [])

/-- Pass 1 of `BaseApi.json` (api.py lines 585-650): relationship fields.
Read-only fields are skipped; a relationship field with a custom `json_path`
raises `NotImplementedError`; when the related type has an id field the
resolved related id is placed at the `{name}_id` key.  When the related type
has no id field the source recursively exports the embedded child; the
embedded instance state does not contain child states, so that path is out
of embedding scope (no verified statement uses it). -/
def json_pass1_go (cfg : Structure) (st : ModelState) :
    List FieldE → Doc → Except PyErr Doc
  | [], json => .ok json
  | field :: rest, json =>
    if field.read_only then json_pass1_go cfg st rest json
    else
      match field.related_type with
      | Option.none => json_pass1_go cfg st rest json
      | some r =>
        if field.json_path ≠ field.name then
          Except.error (.notImplementedError
            "related-type and differing json_path not supported")
        else if r.hasId then do
          let child_obj_id ← get_related_field_id cfg st field.name false
          json_pass1_go cfg st rest
            (set_value_into_json_dict child_obj_id (field.name ++ "_id") json)
        else
          Except.error (.notEmbedded "recursive export of an embedded child")

def json_pass1 (cfg : Structure) (st : ModelState) : Except PyErr Doc :=
  json_pass1_go cfg st cfg []

/-- The converter application of pass 2 of `BaseApi.json` (api.py lines
662-670): the field converter runs with direction `to_json` on non-None
values. -/
def field_to_json_value (field : FieldE) (v : PyVal) : Except PyErr PyVal :=
  match field.converter with
  | some c =>
    if !v.isNone then converterCall c field.nullable .to_json v else pure v
  | Option.none => pure v

/-- One field of pass 2 of `BaseApi.json`: read, convert, place at the
resolved path. -/
def json_pass2_field (cfg : Structure) (st : ModelState) (json : Doc)
    (field : FieldE) : Except PyErr Doc :=
  if field.read_only then pure json
  else if field.related_type.isSome then pure json
  else do
    let v ← getattrModel cfg st field.name
    let v ← field_to_json_value field v
    if field.json_path = "" then
      pure (set_value_into_json_dict v field.name json)
    else
      set_into_path json (strSplitOn field.json_path field.json_path_separator) v

def json_pass2_go (cfg : Structure) (st : ModelState) :
    List FieldE → Doc → Except PyErr Doc
  | [], json => .ok json
  | field :: rest, json => do
    let json ← json_pass2_field cfg st json field
    json_pass2_go cfg st rest json

/-- Pass 2 of `BaseApi.json` (api.py lines 652-684): non-relationship
fields in declaration order. -/
def json_pass2 (cfg : Structure) (st : ModelState) (json0 : Doc) :
    Except PyErr Doc :=
  json_pass2_go cfg st cfg json0

/-- The final normalization loop of `BaseApi.json` (api.py lines 714-718):
every top-level set value becomes a list. -/
def set_to_list_pass (j : Doc) : Doc :=
  j.map (fun kv => (kv.1, match kv.2 with | .set xs => PyVal.list xs | v => v))

/-- `BaseApi.json` (api.py lines 517-720).  `only_include_changes` is
negated when no imported document exists; pass 1 and pass 2 build the
document; under changes-only the keys computed by `fields_to_pop_for_json`
are deleted and an empty result returns `None` (the absent document,
skipping the rest); finally every top-level set value is converted to a
list. -/
def jsonModel (cfg : Structure) (st : ModelState)
    (only_include_changes : Bool) : Except PyErr (Option Doc) := do
  let oic := only_include_changes && st.lastOriginalUpdateJson.isSome
  let j ← json_pass1 cfg st
  let j ← json_pass2 cfg st j
  if oic then
    let pops := fields_to_pop_for_json st j cfg
    let j := pops.foldl ddel j
    if j.isEmpty then .ok Option.none
    else .ok (some (set_to_list_pass j))
  else .ok (some (set_to_list_pass j))

/-- The `json_path` walk of `BaseApi.update_from_json` (api.py lines
888-905): follow the path into the incoming document; a missing segment
means the field got no value this round; a `None` leaf stops the walk and
yields `None` (which the caller records as `Null`); a non-dict intermediate
value makes the `in` test raise. -/
def path_walk : PyVal → List String → Except PyErr (Option PyVal)
  | v, [] => .ok (some v)
  | v, name :: rest =>
    match v with
    | .dict entries =>
      match dget? entries name with
      | Option.none => .ok Option.none
      | some v2 => if v2.isNone then .ok (some .none) else path_walk v2 rest
    | _ => .error (.typeError "argument of type is not a mapping")

def build_values_go (j : Doc) : List FieldE → Doc → Except PyErr Doc
  | [], values => .ok values
  | f :: rest, values => do
    let r ← path_walk (.dict j) (strSplitOn f.json_path f.json_path_separator)
    match r with
    | Option.none => build_values_go j rest values
    | some v =>
      build_values_go j rest (dset values f.name (if v.isNone then PyVal.null else v))

/-- Build the flat name-keyed `values` dict of `update_from_json` from the
field paths (api.py lines 886-905). -/
def build_values (cfg : Structure) (j : Doc) : Except PyErr Doc :=
  build_values_go j cfg []

/-- The non-relationship import pass of `update_from_json` (api.py lines
921-947): a `None` in `values` means `Null`, an absent key means `None`
(leave the attribute untouched); the field converter runs with direction
`from_json` on non-None values; the result is assigned through
`__setattr__` unless it is `None`. -/
def import_plain_field (fuel : Nat) (cfg : Structure) (st : ModelState)
    (values : Doc) (f : FieldE) : Except PyErr ModelState :=
  if f.related_type.isSome then pure st
  else do
    let v :=
      match dget? values f.name with
      | some PyVal.none => PyVal.null
      | some v => v
      | Option.none => PyVal.none
    let v ←
      match f.converter with
      | some c =>
        if !v.isNone then converterCall c f.nullable .from_json v else pure v
      | Option.none => pure v
    if v.isNone then pure st
    else setattrModel fuel cfg st f.name v

def import_plain_fields_go (fuel : Nat) (cfg : Structure) (values : Doc) :
    List FieldE → ModelState → Except PyErr ModelState
  | [], st => .ok st
  | f :: rest, st => do
    let st ← import_plain_field fuel cfg st values f
    import_plain_fields_go fuel cfg values rest st

def import_plain_fields (fuel : Nat) (cfg : Structure) (st : ModelState)
    (values : Doc) : Except PyErr ModelState :=
  import_plain_fields_go fuel cfg values cfg st

/-- The relationship import pass of `update_from_json` (api.py lines
949-1034).  `List[Model]` hints fail fast.  A value found under the field's
own key constructs or assigns a child (construction of an embedded child
model is out of embedding scope; a `Null` assigns `Null`).  Otherwise, for
an id-bearing related type, the `{name}_id` key is read from the raw
document, converted with the id field's converter, turned into `Null` when
explicitly null, and recorded via `set_related_field_id`. -/
def import_related_field (fuel : Nat) (cfg : Structure) (st : ModelState)
    (values : Doc) (j : Doc) (f : FieldE) : Except PyErr ModelState :=
  (match f.related_type with
    | Option.none => pure st
    | some r => do
      if hintOrigin f.type_hint = some PyTy.listTy then
        Except.error (.notImplementedError
          "List type-hints of model types are not currently supported")
      else do
        let f_id_name := f.name ++ "_id"
        match dget? values f.name with
        | some v =>
          if v.isNull then setattrModel fuel cfg st f.name .null
          else Except.error (.notEmbedded "construction of an embedded child model")
        | Option.none =>
          if r.hasId then do
            let f_id_value := (dget? j f_id_name).getD .none
            let conv : Option (ConvKind × Bool) :=
              match get_field cfg f_id_name with
              | some idf => idf.converter.map (fun c => (c, idf.nullable))
              | Option.none => r.idConverter.map (fun c => (c, false))
            let f_id_value ←
              match conv with
              | some cb =>
                if !f_id_value.isNone then
                  converterCall cb.1 cb.2 .from_json f_id_value
                else pure f_id_value
              | Option.none => pure f_id_value
            let f_id_value :=
              if f_id_value.isNone && dhas j f_id_name then PyVal.null
              else f_id_value
            if !f_id_value.isNone then
              set_related_field_id fuel cfg st f.name f_id_value
            else pure st
          else
            -- v is None here, so set_attr_on_model(f, None) does nothing
            pure st)

def import_related_fields_go (fuel : Nat) (cfg : Structure) (values : Doc)
    (j : Doc) : List FieldE → ModelState → Except PyErr ModelState
  | [], st => .ok st
  | f :: rest, st => do
    let st ← import_related_field fuel cfg st values j f
    import_related_fields_go fuel cfg values j rest st

def import_related_fields (fuel : Nat) (cfg : Structure) (st : ModelState)
    (values : Doc) (j : Doc) : Except PyErr ModelState :=
  import_related_fields_go fuel cfg values j cfg st

/-- `BaseApi.update_from_json` (api.py lines 859-1034): merge the incoming
document into the last-known document, resolve field values along their
paths, merge the outer document keys underneath, then run the
non-relationship and relationship import passes. -/
def update_from_json (fuel : Nat) (cfg : Structure) (st : ModelState)
    (j : Doc) : Except PyErr ModelState := do
  let merged := dmerge (st.lastOriginalUpdateJson.getD []) j
  let st := { st with lastOriginalUpdateJson := some merged }
  let values ← build_values cfg j
  let values := dmerge j values
  let st ← import_plain_fields fuel cfg st values
  import_related_fields fuel cfg st values j

/-!
Embedding of `Field.resolve_defaults` (fields.py lines 261-307): the
explicitly-set tracking and the copy of parent attribute values.  Python
object identity matters here (the source stores the parent's set object on
the child and `copy.copy`'s attribute values), so mutable objects live on an
explicit heap and attribute values hold references into it.
-/

/-- Contents of a mutable Python object on the heap: the string set used for
`_options_explicitly_set_by_user`, or the contents of some other mutable
attribute value, abstracted as a numeric tag. -/
inductive HObj where
  | strSet (names : List String)
  | datum (tag : Nat)
deriving DecidableEq, Repr

/-- A heap of mutable objects, addressed by position. -/
abbrev Heap := List HObj

/-- Read a heap cell (out-of-range reads yield a dummy; well-formed inputs
stay in range). -/
def heapGet : Heap → Nat → HObj
  | [], _ => .datum 0
  | o :: _, 0 => o
  | _ :: h, Nat.succ r => heapGet h r

/-- Overwrite a heap cell in place. -/
def heapSet : Heap → Nat → HObj → Heap
  | [], _, _ => []
  | _ :: h, 0, o => o :: h
  | x :: h, Nat.succ r, o => x :: heapSet h r o

/-- Allocate a fresh heap cell, returning its address. -/
def heapAlloc (h : Heap) (o : HObj) : Heap × Nat :=
  (h ++ [o], h.length)

/-- A dataclass attribute value on a `Field`: the `Default` sentinel, Python
`None`, an immutable value (for which `copy.copy` returns the same object),
or a reference to a mutable object on the heap. -/
inductive AttrV where
  | defaultSentinel
  | pyNone
  | imm (tag : Nat)
  | ref (r : Nat)
deriving DecidableEq, Repr

/-- `copy.copy` on an attribute value: immutables and `None` come back
unchanged; a mutable object is shallow-copied into a fresh cell with equal
(top-level) contents. -/
def copyAttr (h : Heap) (v : AttrV) : Heap × AttrV :=
  match v with
  | .ref r =>
    let p := heapAlloc h (heapGet h r)
    (p.1, .ref p.2)
  | v => (h, v)

/-- A `Field` dataclass instance as `resolve_defaults` sees it: its
dataclass attributes in `dataclasses.fields` order, and
`_options_explicitly_set_by_user` (a reference to a string-set heap object,
`Option.none` before resolution). -/
structure FieldObj where
  attrs : List (String × AttrV)
  optionsRef : Option Nat := Option.none
deriving Repr

/-- `getattr(field, name)` over the dataclass attributes. -/
def attrGet (f : FieldObj) (name : String) : AttrV :=
  match f.attrs.find? (fun kv => kv.1 == name) with
  | some kv => kv.2
  | Option.none => .defaultSentinel

/-- `setattr(field, name, v)` over the dataclass attributes. -/
def attrSet (f : FieldObj) (name : String) (v : AttrV) : FieldObj :=
  { f with attrs := f.attrs.map (fun kv => if kv.1 == name then (kv.1, v) else kv) }

/-- Python `set.add` on the embedded string set (no-op when present). -/
def setInsert (xs : List String) (x : String) : List String :=
  if xs.contains x then xs else xs ++ [x]

/-- Membership in a string-set heap object. -/
def strSetMem (o : HObj) (x : String) : Bool :=
  match o with
  | .strSet xs => xs.contains x
  | .datum _ => false

/-- The dataclass attribute names of `f` whose value is not the `Default`
sentinel: the names the first loop of `resolve_defaults` adds to
`options_explicitly_set_by_user`. -/
def explicit_attr_names (f : FieldObj) : List String :=
  (f.attrs.filter (fun kv => kv.2 ≠ .defaultSentinel)).map (fun kv => kv.1)

/-- One iteration of the parent-copy loop of `Field.resolve_defaults`
(fields.py lines 293-307): skip when the parent's value is `Default`, skip
when the attribute name is not in the (shared) explicitly-set set, and copy
the parent's value onto the child when the child's value is still
`Default`. -/
def resolve_copy_step (optsRef : Nat) (acc : Heap × FieldObj)
    (kv : String × AttrV) : Heap × FieldObj :=
  if kv.2 = .defaultSentinel then acc
  else if !strSetMem (heapGet acc.1 optsRef) kv.1 then acc
  else if attrGet acc.2 kv.1 = .defaultSentinel then
    let p := copyAttr acc.1 kv.2
    (p.1, attrSet acc.2 kv.1 p.2)
  else acc

/-- `Field.resolve_defaults`, the explicitly-set tracking and parent-copy
portion (fields.py lines 261-307).  The local
`options_explicitly_set_by_user` is the parent's set OBJECT when a parent
field is supplied (`parent_field._options_explicitly_set_by_user`, no
copy), otherwise a fresh empty set; the first loop adds the child's
non-`Default` attribute names to that shared set; the set is stored on the
child; then each parent attribute is copied onto the child when the child
still has `Default`, the parent has a value, and the name is in the shared
set.  (The subclass check raises only for mismatched `Field` types, which
the embedding does not distinguish.) -/
def resolve_defaults (h : Heap) (child : FieldObj) (parent? : Option FieldObj) :
    Heap × FieldObj :=
  let hr : Heap × Nat :=
    match parent? with
    | some p => (h, p.optionsRef.getD 0)
    | Option.none => heapAlloc h (.strSet [])
  let h := hr.1
  let optsRef := hr.2
  let h := heapSet h optsRef
    (match heapGet h optsRef with
     | .strSet xs => .strSet ((explicit_attr_names child).foldl setInsert xs)
     | o => o)
  let child := { child with optionsRef := some optsRef }
  match parent? with
  | Option.none => (h, child)
  | some parent => parent.attrs.foldl (resolve_copy_step optsRef) (h, child)

/-!
Embedding of `BaseModel.__eq__` / `BaseModel.__hash__` (model.py lines
644-656).  Python `is` compares object identity, so a model instance is
represented by its CPython address; field values live in a separate store
keyed by the instance and play no part in equality.
-/

/-- A model instance as an identity: its CPython object address. -/
structure PyObj where
  addr : Nat
deriving DecidableEq, Repr

/-- `BaseModel.__eq__` (model.py lines 644-649): `return self is other`. -/
def baseModelEq (self other : PyObj) : Bool :=
  self == other

/-- `BaseModel.__hash__` (model.py lines 651-656): `return id(self)`. -/
def baseModelHash (self : PyObj) : Nat :=
  self.addr

/-- The model/document class over which the changes-only import/export
statements are quantified: every field of the structure is a plain
non-relationship, non-read-only field mapped at its own (dot-free) name
with the default separator, it carries the registered default basic
converter for its declared `int`/`str` type, its inclusion dependencies
name declared fields, and the incoming document holds a same-typed
primitive for it, named by `vals` (strings additionally escape the
placeholder scrub of `__setattr__`). -/
def basic_covered (cfg : Structure) (d : Doc) (vals : FieldE → PyVal) : Prop :=
  ∀ f ∈ cfg,
    f.related_type = Option.none ∧
    f.read_only = false ∧
    f.name ≠ "" ∧
    f.json_path = f.name ∧
    f.json_path_separator = "." ∧
    strSplitOn f.name "." = [f.name] ∧
    (∀ g ∈ f.include_with_fields, g ∈ cfg.map FieldE.name) ∧
    dget? d f.name = some (vals f) ∧
    ((f.type_hint = .tint ∧ f.converter = some .basicInt ∧ ∃ n, vals f = .int n) ∨
     (f.type_hint = .tstr ∧ f.converter = some .basicStr ∧
       ∃ s, vals f = .str s ∧ strStarts s "#########" = false))

/-- The structural discipline shared by plainly-mapped fields: not a
relationship, not read-only, mapped at its own dot-free name with the
default separator. -/
def plain_shape (cfg : Structure) : Prop :=
  ∀ f ∈ cfg,
    f.related_type = Option.none ∧
    f.read_only = false ∧
    f.name ≠ "" ∧
    f.json_path = f.name ∧
    f.json_path_separator = "." ∧
    strSplitOn f.name "." = [f.name]

/-!
Concrete model structures used by the verified statements.
-/

/-- A model with a single non-nullable int field, as in
`tests/test_null.py` (`non_nullable: int`); the resolved field carries the
registered default int converter. -/
def cfg_non_nullable_int : Structure :=
  [{ name := "non_nullable", type_hint := .tint, nullable := false,
     json_path := "non_nullable", converter := some .basicInt }]

/-- A model with a single int field whose declared default value is `5`. -/
def cfg_int_default : Structure :=
  [{ name := "f", type_hint := .tint, nullable := false, json_path := "f",
     converter := some .basicInt, defaultVal := some (.int 5) }]

/-- An int field named `n` with the given `include_with_fields` set. -/
def int_field (n : String) (incl : List String) : FieldE :=
  { name := n, type_hint := .tint, nullable := false, json_path := n,
    converter := some .basicInt, include_with_fields := incl }

/-- Fields C, A, B in declaration order: C is included with A, and A is
included with B. -/
def cfg_chain : Structure :=
  [int_field "C" ["A"], int_field "A" ["B"], int_field "B" []]

/-- Fields A, B in declaration order: A is included with B. -/
def cfg_pair : Structure :=
  [int_field "A" ["B"], int_field "B" []]

/-- A related model type `Child` with an id field converted by the basic
int converter. -/
def relTy_child : RelTy :=
  { tyName := "Child", hasId := true, idConverter := some .basicInt }

/-- A model with one nullable relationship field `child: Nullable[Child]`. -/
def cfg_child : Structure :=
  [{ name := "child", type_hint := .tmodel "Child", nullable := true,
     json_path := "child", related_type := some relTy_child }]

/-- A model with a set-typed field placed in a nested sub-document
(`json_path = "a.b"`) and a second set-typed field at a top-level key. -/
def cfg_nested_set : Structure :=
  [{ name := "s", type_hint := .tsetOf .tint, nullable := false, json_path := "a.b" },
   { name := "t", type_hint := .tsetOf .tint, nullable := false, json_path := "t" }]

/-- An instance of `cfg_nested_set` with both set fields materialized. -/
def st_nested_set : ModelState :=
  { attrs := [("s", .set [.int 1, .int 2]), ("t", .set [.int 3])] }

/-- A model with a single nullable int field. -/
def cfg_nullable_int : Structure :=
  [{ name := "f", type_hint := .tint, nullable := true, json_path := "f",
     converter := some .basicInt }]

/-- A parent `Field` dataclass instance, already resolved: its
explicitly-set set lives at heap address 0 and records that the declarer
set `default`. -/
def parent_field_obj : FieldObj :=
  { attrs := [("default", .imm 1), ("converter", .defaultSentinel)],
    optionsRef := some 0 }

/-- A child `Field` dataclass instance declaring `converter` explicitly and
leaving `default` unset. -/
def child_field_obj : FieldObj :=
  { attrs := [("default", .defaultSentinel), ("converter", .imm 2)] }

/-- The heap before the child's resolution: only the parent's
explicitly-set set is allocated. -/
def heap0 : Heap := [.strSet ["default"]]

/-! ### Dictionary lemmas -/

theorem dget?_nil (k : String) : dget? [] k = Option.none := rfl

theorem dget?_cons (kv : String × PyVal) (rest : Doc) (k : String) :
    dget? (kv :: rest) k = if kv.1 == k then some kv.2 else dget? rest k := by
  cases h : (kv.1 == k) <;> simp [dget?, List.find?, h]

theorem dget?_dset_self (d : Doc) (k : String) (v : PyVal) :
    dget? (dset d k v) k = some v := by
  induction d with
  | nil => simp [dset, dget?_cons]
  | cons kv rest ih =>
    simp only [dset]
    cases h : (kv.1 == k)
    · simp [dget?_cons, h, ih]
    · simp [dget?_cons]

theorem dget?_dset_ne (d : Doc) (k k' : String) (v : PyVal) (h : k' ≠ k) :
    dget? (dset d k v) k' = dget? d k' := by
  have hkk : (k == k') = false := by simpa [beq_iff_eq] using Ne.symm h
  induction d with
  | nil => simp [dset, dget?_cons, hkk, dget?_nil]
  | cons kv rest ih =>
    simp only [dset]
    cases hk : (kv.1 == k)
    · simp [dget?_cons, ih]
    · have hv : kv.1 = k := by simpa [beq_iff_eq] using hk
      simp [dget?_cons, hkk, hv]

theorem dget?_ddel_ne (d : Doc) (k k' : String) (h : k' ≠ k) :
    dget? (ddel d k) k' = dget? d k' := by
  induction d with
  | nil => rfl
  | cons kv rest ih =>
    simp only [ddel]
    cases hk : (kv.1 == k)
    · simp [dget?_cons, ih]
    · have hv : kv.1 = k := by simpa [beq_iff_eq] using hk
      have : (kv.1 == k') = false := by
        simpa [beq_iff_eq, hv] using Ne.symm h
      simp [dget?_cons, this]

theorem dget?_eq_none_of_not_mem (d : Doc) (k : String) (h : k ∉ dkeys d) :
    dget? d k = Option.none := by
  induction d with
  | nil => rfl
  | cons kv rest ih =>
    simp only [dkeys, List.map_cons, List.mem_cons, not_or] at h
    have : (kv.1 == k) = false := by
      simpa [beq_iff_eq] using fun e => h.1 e.symm
    rw [dget?_cons, this]
    simp only [Bool.false_eq_true, if_false]
    exact ih (by simpa [dkeys] using h.2)

theorem dget?_ddel_self (d : Doc) (k : String) (h : keysNodup d) :
    dget? (ddel d k) k = Option.none := by
  induction d with
  | nil => rfl
  | cons kv rest ih =>
    simp only [keysNodup, dkeys, List.map_cons, List.nodup_cons] at h
    simp only [ddel]
    cases hk : (kv.1 == k)
    · simp only [Bool.false_eq_true, if_false, dget?_cons, hk]
      exact ih (by simpa [keysNodup, dkeys] using h.2)
    · have hv : kv.1 = k := by simpa [beq_iff_eq] using hk
      simp only [if_pos rfl]
      exact dget?_eq_none_of_not_mem rest k (by simpa [dkeys, hv] using h.1)

theorem dhas_false_of_dget? (d : Doc) (k : String)
    (h : dget? d k = Option.none) : dhas d k = false := by
  simp [dhas, h]

theorem dget?_append_left (a b : Doc) (k : String) (v : PyVal)
    (h : dget? a k = some v) : dget? (a ++ b) k = some v := by
  induction a with
  | nil => simp [dget?] at h
  | cons kv rest ih =>
    rw [dget?_cons] at h
    rw [List.cons_append, dget?_cons]
    cases hk : (kv.1 == k)
    · rw [hk] at h
      simp only [Bool.false_eq_true, if_false] at h ⊢
      exact ih h
    · rw [hk] at h
      simpa using h

theorem dget?_append_right (a b : Doc) (k : String)
    (h : dget? a k = Option.none) : dget? (a ++ b) k = dget? b k := by
  induction a with
  | nil => rfl
  | cons kv rest ih =>
    rw [dget?_cons] at h
    rw [List.cons_append, dget?_cons]
    cases hk : (kv.1 == k)
    · rw [hk] at h
      simp only [Bool.false_eq_true, if_false] at h ⊢
      exact ih h
    · rw [hk] at h
      simp at h

theorem dset_append_of_absent (a : Doc) (k : String) (v : PyVal)
    (h : dget? a k = Option.none) : dset a k v = a ++ [(k, v)] := by
  induction a with
  | nil => rfl
  | cons kv rest ih =>
    rw [dget?_cons] at h
    simp only [dset]
    cases hk : (kv.1 == k)
    · rw [hk] at h
      simp only [Bool.false_eq_true, if_false] at h ⊢
      rw [ih h]
      rfl
    · rw [hk] at h
      simp at h

theorem dmerge_cons (a : Doc) (kv : String × PyVal) (rest : Doc) :
    dmerge a (kv :: rest) = dmerge (dset a kv.1 kv.2) rest := rfl

theorem dget?_dmerge_absent (a b : Doc) (k : String)
    (h : dget? b k = Option.none) : dget? (dmerge a b) k = dget? a k := by
  induction b generalizing a with
  | nil => rfl
  | cons kv rest ih =>
    rw [dget?_cons] at h
    rw [dmerge_cons]
    cases hk : (kv.1 == k)
    · rw [hk] at h
      simp only [Bool.false_eq_true, if_false] at h
      rw [ih _ h]
      exact dget?_dset_ne a kv.1 k kv.2
        (fun e => by simp [e] at hk)
    · rw [hk] at h
      simp at h

theorem dget?_dmerge_present (a b : Doc) (k : String) (v : PyVal)
    (hnd : keysNodup b) (h : dget? b k = some v) :
    dget? (dmerge a b) k = some v := by
  induction b generalizing a with
  | nil => simp [dget?] at h
  | cons kv rest ih =>
    simp only [keysNodup, dkeys, List.map_cons, List.nodup_cons] at hnd
    rw [dget?_cons] at h
    rw [dmerge_cons]
    cases hk : (kv.1 == k)
    · rw [hk] at h
      simp only [Bool.false_eq_true, if_false] at h
      exact ih _ (by simpa [keysNodup, dkeys] using hnd.2) h
    · have hv : kv.1 = k := by simpa [beq_iff_eq] using hk
      rw [hk] at h
      simp only [if_pos] at h
      have hnone : dget? rest k = Option.none :=
        dget?_eq_none_of_not_mem rest k (by simpa [dkeys, hv] using hnd.1)
      rw [dget?_dmerge_absent _ _ _ hnone, hv]
      rw [dget?_dset_self]
      exact h

theorem dmerge_eq_append (a l : Doc) (hnd : keysNodup l)
    (habs : ∀ kv ∈ l, dget? a kv.1 = Option.none) :
    dmerge a l = a ++ l := by
  induction l generalizing a with
  | nil => simp [dmerge]
  | cons kv rest ih =>
    simp only [keysNodup, dkeys, List.map_cons, List.nodup_cons] at hnd
    have habs2 : ∀ kv2 ∈ rest, dget? (a ++ [(kv.1, kv.2)]) kv2.1 = Option.none := by
      intro kv2 hm
      have hne : kv2.1 ≠ kv.1 := by
        intro e
        exact hnd.1 (e ▸ List.mem_map_of_mem Prod.fst hm)
      rw [dget?_append_right a [(kv.1, kv.2)] kv2.1 (habs kv2 (List.mem_cons_of_mem kv hm))]
      have : (kv.1 == kv2.1) = false := by simpa [beq_iff_eq] using Ne.symm hne
      simp [dget?_cons, this, dget?_nil]
    rw [dmerge_cons]
    rw [dset_append_of_absent a kv.1 kv.2 (habs kv (List.mem_cons_self kv rest))]
    rw [ih (a ++ [(kv.1, kv.2)]) (by simpa [keysNodup, dkeys] using hnd.2) habs2]
    simp

theorem dmerge_nil_left (l : Doc) (hnd : keysNodup l) : dmerge [] l = l := by
  have := dmerge_eq_append [] l hnd (by intro kv _; rfl)
  simpa using this

theorem foldl_ddel_dkeys (j : Doc) : (dkeys j).foldl ddel j = [] := by
  induction j with
  | nil => rfl
  | cons kv rest ih =>
    simp only [dkeys, List.map_cons, List.foldl_cons]
    have : ddel (kv :: rest) kv.1 = rest := by
      simp [ddel]
    rw [this]
    exact ih

/-! ### Converter lemmas -/

theorem conv_basic_int_val (nb : Bool) (dir : Direction) (n : Int) :
    convert_basic_call .basicInt nb dir (.int n) = .ok (.int n) := by
  simp [convert_basic_call, convert_basic_value, PyVal.isNone, PyVal.isNull, PyVal.typeOf]

theorem conv_basic_str_val (nb : Bool) (dir : Direction) (s : String) :
    convert_basic_call .basicStr nb dir (.str s) = .ok (.str s) := by
  simp [convert_basic_call, convert_basic_value, PyVal.isNone, PyVal.isNull, PyVal.typeOf]

theorem conv_null_preserved (k : ConvKind) (nb : Bool) (dir : Direction) :
    convert_basic_call k nb dir .null =
      .ok (if dir = .from_json ∧ nb then .null else .null) := by
  cases k <;> cases dir <;> cases nb <;> rfl

theorem converterCall_null (k : ConvKind) (nb : Bool) (dir : Direction) :
    converterCall k nb dir .null = .ok .null := by
  have := conv_null_preserved k nb dir
  simpa [converterCall] using this

theorem pyEq_int (n m : Int) : pyEq (.int n) (.int m) = (n == m) := rfl

theorem pyEq_str (s t : String) : pyEq (.str s) (.str t) = (s == t) := rfl

theorem pyEq_int_refl (n : Int) : pyEq (.int n) (.int n) = true := by
  rw [pyEq_int]
  simp

theorem pyEq_str_refl (s : String) : pyEq (.str s) (.str s) = true := by
  rw [pyEq_str]
  simp

/-! ### Model runtime lemmas -/

theorem typeIsHint_str_eq (h : THint) (ht : typeIsHint .strTy h = true) :
    h = .tstr := by
  cases h <;> first
    | rfl
    | simp [typeIsHint] at ht

theorem typeIsHint_not_none (v : PyVal) (h : THint)
    (ht : typeIsHint v.typeOf h = true) : v.isNone = false := by
  cases v
  case none => cases h <;> simp [typeIsHint, PyVal.typeOf] at ht
  all_goals rfl

theorem is_field_a_child_false (cfg : Structure) (n : String) (b : Bool)
    (h : ∀ f ∈ cfg, f.related_type = Option.none) :
    is_field_a_child cfg n b = false := by
  unfold is_field_a_child
  cases hf : get_field cfg n with
  | none => rfl
  | some f =>
    have hr := h f (List.mem_of_find?_eq_some hf)
    simp [hr]

theorem get_field_of_mem (cfg : Structure) (f : FieldE)
    (hnd : (cfg.map FieldE.name).Nodup) (hm : f ∈ cfg) :
    get_field cfg f.name = some f := by
  induction cfg with
  | nil => cases hm
  | cons g rest ih =>
    simp only [List.map_cons, List.nodup_cons] at hnd
    rcases List.mem_cons.mp hm with h | h
    · subst h
      simp [get_field, List.find?]
    · have hne : g.name ≠ f.name := by
        intro e
        exact hnd.1 (e ▸ List.mem_map_of_mem FieldE.name h)
      simp only [get_field, List.find?,
        (by simpa [beq_iff_eq] using hne : (g.name == f.name) = false)]
      exact ih hnd.2 h

theorem reset_attrs (st : ModelState) (n : String) :
    (reset_related_field_id_if_exists st n).attrs = st.attrs := by
  unfold reset_related_field_id_if_exists
  split <;> rfl

theorem reset_last (st : ModelState) (n : String) :
    (reset_related_field_id_if_exists st n).lastOriginalUpdateJson =
      st.lastOriginalUpdateJson := by
  unfold reset_related_field_id_if_exists
  split <;> rfl

theorem scrub_placeholder_eq (v : PyVal)
    (hsh : ∀ s, v = PyVal.str s → strStarts s "#########" = false) :
    scrub_placeholder v = v := by
  cases v with
  | str s => simp [scrub_placeholder, hsh s rfl]
  | none => rfl
  | null => rfl
  | int n => rfl
  | bool b => rfl
  | list xs => rfl
  | set xs => rfl
  | dict entries => rfl
  | model a b c => rfl

theorem setattr_matching (fuel : Nat) (cfg : Structure) (st : ModelState)
    (f : FieldE) (v : PyVal)
    (hnr : ∀ g ∈ cfg, g.related_type = Option.none)
    (hf : get_field cfg f.name = some f)
    (ht : typeIsHint v.typeOf f.type_hint = true)
    (hsh : ∀ s, v = PyVal.str s → strStarts s "#########" = false) :
    setattrModel (fuel + 1) cfg st f.name v =
      .ok { reset_related_field_id_if_exists st f.name with
            attrs := dset st.attrs f.name v } := by
  have hchild := is_field_a_child_false cfg (strDropRight f.name 3) true hnr
  have hnone := typeIsHint_not_none v f.type_hint ht
  have hcond1 : (f.nullable && !decide (f.type_hint = THint.tstr)
      && decide (v.typeOf = PyTy.strTy) && pyFalsyStr v) = false := by
    by_cases hs : v.typeOf = PyTy.strTy
    · have := typeIsHint_str_eq f.type_hint (hs ▸ ht)
      simp [this]
    · simp [hs]
  simp only [setattrModel, hchild, Bool.and_false, Bool.false_eq_true, if_false]
  rw [hf]
  simp [hcond1, hnone, ht, scrub_placeholder_eq v hsh, reset_attrs]

/-! ### Converter wrappers and basic-field facts -/

theorem converterCall_int (nb : Bool) (dir : Direction) (n : Int) :
    converterCall .basicInt nb dir (.int n) = .ok (.int n) :=
  conv_basic_int_val nb dir n

theorem converterCall_str (nb : Bool) (dir : Direction) (s : String) :
    converterCall .basicStr nb dir (.str s) = .ok (.str s) :=
  conv_basic_str_val nb dir s

theorem bc_field_facts (cfg : Structure) (d : Doc) (vals : FieldE → PyVal)
    (f : FieldE) (h : basic_covered cfg d vals) (hm : f ∈ cfg) :
    (vals f).isNone = false ∧
    (vals f).isNull = false ∧
    typeIsHint (vals f).typeOf f.type_hint = true ∧
    (∀ s, vals f = PyVal.str s → strStarts s "#########" = false) ∧
    (∃ c, f.converter = some c ∧
      ∀ nb dir, converterCall c nb dir (vals f) = .ok (vals f)) := by
  obtain ⟨-, -, -, -, -, -, -, -, hkind⟩ := h f hm
  rcases hkind with ⟨hth, hc, n, hv⟩ | ⟨hth, hc, s, hv, hsw⟩
  · refine ⟨?_, ?_, ?_, ?_, ⟨.basicInt, hc, ?_⟩⟩
    · simp [hv, PyVal.isNone]
    · simp [hv, PyVal.isNull]
    · simp [hv, hth, PyVal.typeOf, typeIsHint]
    · intro s2 hs
      rw [hv] at hs
      cases hs
    · intro nb dir
      rw [hv]
      exact converterCall_int nb dir n
  · refine ⟨?_, ?_, ?_, ?_, ⟨.basicStr, hc, ?_⟩⟩
    · simp [hv, PyVal.isNone]
    · simp [hv, PyVal.isNull]
    · simp [hv, hth, PyVal.typeOf, typeIsHint]
    · intro s2 hs
      rw [hv] at hs
      cases hs
      exact hsw
    · intro nb dir
      rw [hv]
      exact converterCall_str nb dir s

/-! ### Import lemmas for the basic covered class -/

theorem build_values_go_basic (cfg : Structure) (d : Doc) (vals : FieldE → PyVal)
    (h : basic_covered cfg d vals) :
    ∀ (l : List FieldE), (∀ f ∈ l, f ∈ cfg) → ∀ (acc : Doc),
      build_values_go d l acc =
        .ok (dmerge acc (l.map (fun f => (f.name, vals f)))) := by
  intro l
  induction l with
  | nil => intro _ acc; rfl
  | cons f rest ih =>
    intro hsub acc
    have hmem := hsub f (List.mem_cons_self f rest)
    obtain ⟨-, -, -, hjp, hsep, hsplit, -, hdg, -⟩ := h f hmem
    obtain ⟨hnn, -, -, -, -⟩ := bc_field_facts cfg d vals f h hmem
    simp only [build_values_go, hjp, hsep, hsplit, path_walk, hdg, hnn,
      Bool.false_eq_true, if_false, Bind.bind, Except.bind]
    rw [ih (fun g hg => hsub g (List.mem_cons_of_mem f hg))
        (dset acc f.name (vals f))]
    simp [dmerge_cons]

theorem import_related_go_nonrel (fuel : Nat) (cfg : Structure) (values j : Doc) :
    ∀ (l : List FieldE), (∀ f ∈ l, f.related_type = Option.none) →
    ∀ (st : ModelState),
      import_related_fields_go fuel cfg values j l st = .ok st := by
  intro l
  induction l with
  | nil => intro _ st; rfl
  | cons f rest ih =>
    intro hnr st
    have h1 : f.related_type = Option.none := hnr f (List.mem_cons_self f rest)
    simp only [import_related_fields_go, import_related_field, h1]
    exact ih (fun g hg => hnr g (List.mem_cons_of_mem f hg)) st

theorem import_plain_go_basic (fuel : Nat) (cfg : Structure) (d : Doc)
    (vals : FieldE → PyVal) (h : basic_covered cfg d vals)
    (hnd : (cfg.map FieldE.name).Nodup) (values : Doc)
    (hv : ∀ f ∈ cfg, dget? values f.name = some (vals f)) :
    ∀ (l : List FieldE), (∀ f ∈ l, f ∈ cfg) → ∀ (st : ModelState),
      ∃ stF, import_plain_fields_go (fuel + 1) cfg values l st = .ok stF ∧
        stF.attrs = dmerge st.attrs (l.map (fun f => (f.name, vals f))) ∧
        stF.lastOriginalUpdateJson = st.lastOriginalUpdateJson := by
  intro l
  induction l with
  | nil =>
    intro _ st
    exact ⟨st, rfl, by simp [dmerge], rfl⟩
  | cons f rest ih =>
    intro hsub st
    have hmem := hsub f (List.mem_cons_self f rest)
    obtain ⟨hrel, -, -, -, -, -, -, -, hkind⟩ := h f hmem
    obtain ⟨hnn, -, hth, hsh, c, hc, hconv⟩ := bc_field_facts cfg d vals f h hmem
    have hnr : ∀ g ∈ cfg, g.related_type = Option.none := fun g hg => (h g hg).1
    have hgf := get_field_of_mem cfg f hnd hmem
    have hsetattr := setattr_matching fuel cfg st f (vals f) hnr hgf hth hsh
    have hstep : import_plain_field (fuel + 1) cfg st values f =
        .ok { reset_related_field_id_if_exists st f.name with
              attrs := dset st.attrs f.name (vals f) } := by
      rcases hkind with ⟨-, hc2, n, hveq⟩ | ⟨-, hc2, s, hveq, -⟩
      · rw [hveq] at hsetattr
        simp only [import_plain_field, hrel, Option.isSome_none, Bool.false_eq_true,
          if_false, hv f hmem, hveq, hc2, PyVal.isNone, Bool.not_false, if_true,
          converterCall_int, Bind.bind, Except.bind, hsetattr]
      · rw [hveq] at hsetattr
        simp only [import_plain_field, hrel, Option.isSome_none, Bool.false_eq_true,
          if_false, hv f hmem, hveq, hc2, PyVal.isNone, Bool.not_false, if_true,
          converterCall_str, Bind.bind, Except.bind, hsetattr]
    simp only [import_plain_fields_go, hstep]
    obtain ⟨stF, hrun, hattrs, hlast⟩ :=
      ih (fun g hg => hsub g (List.mem_cons_of_mem f hg))
        { reset_related_field_id_if_exists st f.name with
          attrs := dset st.attrs f.name (vals f) }
    refine ⟨stF, by simpa using hrun, ?_, ?_⟩
    · rw [hattrs]
      simp [dmerge_cons]
    · rw [hlast]
      exact reset_last st f.name

/-! ### Export lemmas for the basic covered class -/

theorem json_pass1_go_nonrel (cfg : Structure) (st : ModelState) :
    ∀ (l : List FieldE), (∀ f ∈ l, f.related_type = Option.none) →
    ∀ (acc : Doc), json_pass1_go cfg st l acc = .ok acc := by
  intro l
  induction l with
  | nil => intro _ acc; rfl
  | cons f rest ih =>
    intro hnr acc
    have h1 : f.related_type = Option.none := hnr f (List.mem_cons_self f rest)
    have ih2 := ih (fun g hg => hnr g (List.mem_cons_of_mem f hg)) acc
    by_cases hro : f.read_only
    · simp only [json_pass1_go, hro, if_true]
      exact ih2
    · simp only [json_pass1_go, hro, Bool.false_eq_true, if_false, h1]
      exact ih2

theorem json_pass2_go_basic (cfg : Structure) (st : ModelState) (d : Doc)
    (vals : FieldE → PyVal) (h : basic_covered cfg d vals)
    (hatt : ∀ f ∈ cfg, dget? st.attrs f.name = some (vals f)) :
    ∀ (l : List FieldE), (∀ f ∈ l, f ∈ cfg) → ∀ (acc : Doc),
      json_pass2_go cfg st l acc =
        .ok (dmerge acc (l.map (fun f => (f.name, vals f)))) := by
  intro l
  induction l with
  | nil => intro _ acc; rfl
  | cons f rest ih =>
    intro hsub acc
    have hmem := hsub f (List.mem_cons_self f rest)
    obtain ⟨hrel, hro, hne, hjp, hsep, hsplit, -, -, hkind⟩ := h f hmem
    have hstep : json_pass2_field cfg st acc f = .ok (dset acc f.name (vals f)) := by
      rcases hkind with ⟨-, hc2, n, hveq⟩ | ⟨-, hc2, s, hveq, -⟩
      · simp only [json_pass2_field, hro, Bool.false_eq_true, if_false, hrel,
          Option.isSome_none, getattrModel, hatt f hmem, hveq, field_to_json_value,
          hc2, PyVal.isNone, Bool.not_false, if_true, converterCall_int,
          Bind.bind, Except.bind, hjp, hsep, hsplit, hne, set_into_path,
          set_value_into_json_dict]
      · simp only [json_pass2_field, hro, Bool.false_eq_true, if_false, hrel,
          Option.isSome_none, getattrModel, hatt f hmem, hveq, field_to_json_value,
          hc2, PyVal.isNone, Bool.not_false, if_true, converterCall_str,
          Bind.bind, Except.bind, hjp, hsep, hsplit, hne, set_into_path,
          set_value_into_json_dict]
    simp only [json_pass2_go, hstep, Bind.bind, Except.bind]
    rw [ih (fun g hg => hsub g (List.mem_cons_of_mem f hg)) (dset acc f.name (vals f))]
    simp [dmerge_cons]

/-! ### Diff lemmas -/

theorem get_old_json_value_same (st : ModelState) (orig : Doc) (k : String)
    (v : PyVal) (hl : st.lastOriginalUpdateJson = some orig)
    (hg : dget? orig k = some v) :
    get_old_json_value st k v.typeOf = some v := by
  simp [get_old_json_value, hl, hg]

theorem should_include_self_false (v : PyVal) (hs : v.isSet = false)
    (hr : pyEq v v = true) : should_include_field_in_json v v = false := by
  cases v <;> simp_all [should_include_field_in_json, PyVal.isSet]

theorem fields_to_pop_diff_all_equal (st : ModelState) :
    ∀ (l : Doc) (pop : List String),
      (∀ kv ∈ l, get_old_json_value st kv.1 kv.2.typeOf = some kv.2 ∧
        should_include_field_in_json kv.2 kv.2 = false) →
      fields_to_pop_diff st l pop = pop ++ dkeys l := by
  intro l
  induction l with
  | nil => intro pop _; simp [fields_to_pop_diff, dkeys]
  | cons kv rest ih =>
    intro pop hall
    obtain ⟨hold, hinc⟩ := hall kv (List.mem_cons_self kv rest)
    simp only [fields_to_pop_diff, hold, hinc, Bool.false_eq_true, if_false]
    rw [ih (pop ++ [kv.1]) (fun kv2 h2 => hall kv2 (List.mem_cons_of_mem kv h2))]
    simp [dkeys]

theorem contains_of_mem (l : List String) (a : String) (h : a ∈ l) :
    l.contains a = true := by
  induction l with
  | nil => cases h
  | cons b rest ih =>
    rcases List.mem_cons.mp h with h1 | h1
    · subst h1
      simp [List.contains_cons]
    · simp only [List.contains_cons, ih h1, Bool.or_true]

theorem include_pass_id :
    ∀ (l : List FieldE) (pop : List String),
      (∀ f ∈ l, ∀ g ∈ f.include_with_fields, pop.contains g = true) →
      fields_to_pop_include_pass l pop = pop := by
  intro l
  induction l with
  | nil => intro pop _; rfl
  | cons f rest ih =>
    intro pop hall
    have ihr := ih pop (fun g hg => hall g (List.mem_cons_of_mem f hg))
    by_cases hemp : f.include_with_fields.isEmpty
    · simp only [fields_to_pop_include_pass, hemp, if_true]
      exact ihr
    · have hsubset : f.include_with_fields.all pop.contains = true :=
        List.all_eq_true.mpr
          (fun g hg => hall f (List.mem_cons_self f rest) g hg)
      cases hcont : pop.contains f.name
      · simp only [fields_to_pop_include_pass, hemp, Bool.false_eq_true, if_false,
          hcont, Bool.not_false, if_true]
        exact ihr
      · simp only [fields_to_pop_include_pass, hemp, Bool.false_eq_true, if_false,
          hcont, Bool.not_true, hsubset]
        exact ihr

theorem dget?_map_fields (cfg : List FieldE) (vals : FieldE → PyVal) (f : FieldE)
    (hnd : (cfg.map FieldE.name).Nodup) (hm : f ∈ cfg) :
    dget? (cfg.map (fun g => (g.name, vals g))) f.name = some (vals f) := by
  induction cfg with
  | nil => cases hm
  | cons g rest ih =>
    simp only [List.map_cons, List.nodup_cons] at hnd
    rcases List.mem_cons.mp hm with h1 | h1
    · subst h1
      simp [dget?_cons]
    · have hne : g.name ≠ f.name := by
        intro e
        exact hnd.1 (e ▸ List.mem_map_of_mem FieldE.name h1)
      rw [List.map_cons, dget?_cons]
      simp only [(by simpa [beq_iff_eq] using hne : (g.name == f.name) = false),
        Bool.false_eq_true, if_false]
      exact ih hnd.2 h1

theorem dkeys_map_fields (cfg : List FieldE) (vals : FieldE → PyVal) :
    dkeys (cfg.map (fun g => (g.name, vals g))) = cfg.map FieldE.name := by
  simp [dkeys, List.map_map, Function.comp]

/-! ### The changes-only round trip for the basic covered class -/

/-- C3 (corrected): the import/export round-trip reports no changes for
the class of documents that actually assign every declared field.  After
`update_from_json` of a document `d` that holds a same-typed primitive for
each field of a plainly-mapped basic structure, and with no subsequent
mutation, the changes-only export returns the absent document.  (The
unrestricted sentence is refuted by `C3_counterexample`: a field the
document does not assign falls back to its declared default, which the
changes-only export then reports, because the diff keeps every key without
an original value.) -/
theorem changes_only_after_import (fuel : Nat) (cfg : Structure)
    (st0 : ModelState) (d : Doc) (vals : FieldE → PyVal)
    (hbc : basic_covered cfg d vals) (hnd : (cfg.map FieldE.name).Nodup)
    (hdn : keysNodup d) :
    ∃ st1, update_from_json (fuel + 1) cfg st0 d = .ok st1 ∧
      jsonModel cfg st1 true = .ok Option.none := by
  have hfvnd : keysNodup (cfg.map (fun g => (g.name, vals g))) := by
    simpa [keysNodup, dkeys_map_fields] using hnd
  set fv : Doc := cfg.map (fun g => (g.name, vals g)) with hfv
  have hnr : ∀ g ∈ cfg, g.related_type = Option.none := fun g hg => (hbc g hg).1
  have hbv : build_values cfg d = .ok fv := by
    rw [build_values, build_values_go_basic cfg d vals hbc cfg (fun f hf => hf) []]
    rw [dmerge_nil_left fv hfvnd]
  have hvlookup : ∀ f ∈ cfg, dget? (dmerge d fv) f.name = some (vals f) := by
    intro f hf
    exact dget?_dmerge_present d fv f.name (vals f) hfvnd
      (dget?_map_fields cfg vals f hnd hf)
  obtain ⟨st1, hplain, hattrs, hlast⟩ :=
    import_plain_go_basic fuel cfg d vals hbc hnd (dmerge d fv) hvlookup cfg
      (fun f hf => hf)
      { st0 with lastOriginalUpdateJson := some (dmerge (st0.lastOriginalUpdateJson.getD []) d) }
  have hrel := import_related_go_nonrel (fuel + 1) cfg (dmerge d fv) d cfg hnr st1
  have hupd : update_from_json (fuel + 1) cfg st0 d = .ok st1 := by
    simp only [update_from_json, Bind.bind, Except.bind, hbv, import_plain_fields,
      hplain, import_related_fields, hrel]
  have hlast1 : st1.lastOriginalUpdateJson =
      some (dmerge (st0.lastOriginalUpdateJson.getD []) d) := by
    simpa using hlast
  have hatt : ∀ f ∈ cfg, dget? st1.attrs f.name = some (vals f) := by
    intro f hf
    rw [hattrs]
    exact dget?_dmerge_present _ fv f.name (vals f) hfvnd
      (dget?_map_fields cfg vals f hnd hf)
  have hpass1 : json_pass1 cfg st1 = .ok [] :=
    json_pass1_go_nonrel cfg st1 cfg hnr []
  have hpass2 : json_pass2 cfg st1 [] = .ok fv := by
    rw [json_pass2, json_pass2_go_basic cfg st1 d vals hbc hatt cfg (fun f hf => hf) []]
    rw [dmerge_nil_left fv hfvnd]
  have hdiffall : ∀ kv ∈ fv, get_old_json_value st1 kv.1 kv.2.typeOf = some kv.2 ∧
      should_include_field_in_json kv.2 kv.2 = false := by
    intro kv hkv
    obtain ⟨g, hg, rfl⟩ := List.mem_map.mp hkv
    obtain ⟨-, -, -, -, -, -, -, hdg, hkind⟩ := hbc g hg
    have hmg : dget? (dmerge (st0.lastOriginalUpdateJson.getD []) d) g.name =
        some (vals g) := dget?_dmerge_present _ d g.name (vals g) hdn hdg
    constructor
    · exact get_old_json_value_same st1 _ g.name (vals g) hlast1 hmg
    · rcases hkind with ⟨-, -, n, hveq⟩ | ⟨-, -, s, hveq, -⟩ <;> rw [hveq]
      · exact should_include_self_false _ (by simp [PyVal.isSet]) (pyEq_int_refl n)
      · exact should_include_self_false _ (by simp [PyVal.isSet]) (pyEq_str_refl s)
  have hdiff : fields_to_pop_diff st1 fv [] = dkeys fv := by
    simpa using fields_to_pop_diff_all_equal st1 fv [] hdiffall
  have hinc : fields_to_pop_include_pass cfg (dkeys fv) = dkeys fv := by
    apply include_pass_id
    intro f hf g hg
    obtain ⟨-, -, -, -, -, -, hincl, -, -⟩ := hbc f hf
    apply contains_of_mem
    rw [hfv, dkeys_map_fields]
    exact hincl g hg
  refine ⟨st1, hupd, ?_⟩
  simp only [jsonModel, hlast1, Option.isSome_some, Bool.and_true, hpass1, hpass2,
    Bind.bind, Except.bind, fields_to_pop_for_json, hdiff, hinc, foldl_ddel_dkeys,
    List.isEmpty_nil, if_true]

/-! ### Shape lemmas for pass 2 of the export -/

theorem set_value_lookup_ne (v : PyVal) (k k' : String) (a : Doc) (h : k' ≠ k) :
    dget? (set_value_into_json_dict v k a) k' = dget? a k' := by
  cases v <;> first
    | rfl
    | exact dget?_dset_ne a k k' _ h

theorem json_pass2_go_shape (cfg : Structure) (st : ModelState)
    (hsh : plain_shape cfg) (W : FieldE → PyVal)
    (hW : ∀ g ∈ cfg, ∃ v, getattrModel cfg st g.name = .ok v ∧
      field_to_json_value g v = .ok (W g)) :
    ∀ (l : List FieldE), (∀ f ∈ l, f ∈ cfg) → ∀ (acc : Doc),
      json_pass2_go cfg st l acc =
        .ok (l.foldl (fun a f => set_value_into_json_dict (W f) f.name a) acc) := by
  intro l
  induction l with
  | nil => intro _ acc; rfl
  | cons f rest ih =>
    intro hsub acc
    have hmem := hsub f (List.mem_cons_self f rest)
    obtain ⟨hrel, hro, hne, hjp, hsep, hsplit⟩ := hsh f hmem
    obtain ⟨v, hget, hconv⟩ := hW f hmem
    have hstep : json_pass2_field cfg st acc f =
        .ok (set_value_into_json_dict (W f) f.name acc) := by
      simp only [json_pass2_field, hro, Bool.false_eq_true, if_false, hrel,
        Option.isSome_none, hget, hconv, Bind.bind, Except.bind, hjp, hsep,
        hsplit, hne, set_into_path]
    simp only [json_pass2_go, hstep, Bind.bind, Except.bind]
    rw [ih (fun g hg => hsub g (List.mem_cons_of_mem f hg)) _]
    simp

theorem fold_set_value_preserves (W : FieldE → PyVal) (k : String) :
    ∀ (l : List FieldE), (∀ f ∈ l, f.name ≠ k) → ∀ (acc : Doc),
      dget? (l.foldl (fun a f => set_value_into_json_dict (W f) f.name a) acc) k =
        dget? acc k := by
  intro l
  induction l with
  | nil => intro _ acc; rfl
  | cons f rest ih =>
    intro hne acc
    simp only [List.foldl_cons]
    rw [ih (fun g hg => hne g (List.mem_cons_of_mem f hg))]
    exact set_value_lookup_ne (W f) f.name k acc
      (fun e => hne f (List.mem_cons_self f rest) e.symm)

theorem fold_set_value_lookup (W : FieldE → PyVal) (f : FieldE) :
    ∀ (l : List FieldE), (l.map FieldE.name).Nodup → f ∈ l → ∀ (acc : Doc),
      dget? (l.foldl (fun a g => set_value_into_json_dict (W g) g.name a) acc) f.name =
        (match W f with
         | PyVal.none => dget? acc f.name
         | PyVal.null => some PyVal.none
         | v => some v) := by
  intro l
  induction l with
  | nil => intro _ hm; cases hm
  | cons g rest ih =>
    intro hnd hm acc
    simp only [List.map_cons, List.nodup_cons] at hnd
    rcases List.mem_cons.mp hm with h1 | h1
    · subst h1
      simp only [List.foldl_cons]
      have hner : ∀ g2 ∈ rest, g2.name ≠ f.name := by
        intro g2 hg2 e
        exact hnd.1 (e ▸ List.mem_map_of_mem FieldE.name hg2)
      rw [fold_set_value_preserves W f.name rest hner]
      cases hWf : W f <;>
        simp [set_value_into_json_dict, hWf, dget?_dset_self]
    · have hne : g.name ≠ f.name := by
        intro e
        exact hnd.1 (e ▸ List.mem_map_of_mem FieldE.name h1)
      simp only [List.foldl_cons]
      rw [ih hnd.2 h1]
      cases hWf : W f
      case none => exact set_value_lookup_ne (W g) g.name f.name acc (Ne.symm hne)
      all_goals rfl

theorem set_to_list_lookup (j : Doc) (k : String) :
    dget? (set_to_list_pass j) k =
      (dget? j k).map (fun v => match v with | PyVal.set xs => PyVal.list xs | v => v) := by
  induction j with
  | nil => rfl
  | cons kv rest ih =>
    simp only [set_to_list_pass, List.map_cons]
    rw [dget?_cons, dget?_cons]
    cases hk : (kv.1 == k)
    · simpa [set_to_list_pass] using ih
    · rfl

theorem set_to_list_no_sets (j : Doc) :
    ∀ kv ∈ set_to_list_pass j, kv.2.isSet = false := by
  intro kv hkv
  obtain ⟨kv0, -, rfl⟩ := List.mem_map.mp hkv
  cases kv0.2 <;> rfl

theorem jsonModel_some_shape (cfg : Structure) (st : ModelState) (oic : Bool)
    (j : Doc) (h : jsonModel cfg st oic = .ok (some j)) :
    ∃ j0, j = set_to_list_pass j0 := by
  unfold jsonModel at h
  simp only [Bind.bind, Except.bind] at h
  cases h1 : json_pass1 cfg st with
  | error e =>
    rw [h1] at h
    simp at h
  | ok j1 =>
    rw [h1] at h
    dsimp only at h
    cases h2 : json_pass2 cfg st j1 with
    | error e =>
      rw [h2] at h
      simp at h
    | ok j2 =>
      rw [h2] at h
      dsimp only at h
      by_cases hoic : (oic && st.lastOriginalUpdateJson.isSome) = true
      · rw [hoic] at h
        simp only [if_true] at h
        by_cases hemp : ((fields_to_pop_for_json st j2 cfg).foldl ddel j2).isEmpty = true
        · rw [hemp] at h
          simp at h
        · rw [Bool.not_eq_true] at hemp
          rw [hemp] at h
          simp only [Bool.false_eq_true, if_false, Except.ok.injEq, Option.some.injEq] at h
          exact ⟨_, h.symm⟩
      · rw [Bool.not_eq_true] at hoic
        rw [hoic] at h
        simp only [Bool.false_eq_true, if_false, Except.ok.injEq, Option.some.injEq] at h
        exact ⟨_, h.symm⟩

theorem field_to_json_value_none (f : FieldE) :
    field_to_json_value f .none = .ok .none := by
  unfold field_to_json_value
  cases f.converter <;> simp [PyVal.isNone, pure, Except.pure]

theorem field_to_json_value_null (f : FieldE) :
    field_to_json_value f .null = .ok .null := by
  unfold field_to_json_value
  cases hc : f.converter with
  | none => rfl
  | some c => simp [PyVal.isNone, converterCall_null]

theorem jsonModel_full_shape (cfg : Structure) (st : ModelState)
    (hsh : plain_shape cfg) (W : FieldE → PyVal)
    (hW : ∀ g ∈ cfg, ∃ v, getattrModel cfg st g.name = .ok v ∧
      field_to_json_value g v = .ok (W g)) :
    jsonModel cfg st false =
      .ok (some (set_to_list_pass
        (cfg.foldl (fun a f => set_value_into_json_dict (W f) f.name a) []))) := by
  have hnr : ∀ g ∈ cfg, g.related_type = Option.none := fun g hg => (hsh g hg).1
  have hpass1 := json_pass1_go_nonrel cfg st cfg hnr []
  have hpass2 := json_pass2_go_shape cfg st hsh W hW cfg (fun f hf => hf) []
  simp only [jsonModel, Bool.false_and, json_pass1, hpass1, json_pass2, hpass2,
    Bind.bind, Except.bind, Bool.false_eq_true, if_false]

theorem reset_area_lookup (st : ModelState) (n : String)
    (hnd : keysNodup st.relatedFieldIdArea) :
    dget? (reset_related_field_id_if_exists st n).relatedFieldIdArea n =
      Option.none := by
  unfold reset_related_field_id_if_exists
  cases hh : dhas st.relatedFieldIdArea n
  · simp only [Bool.false_eq_true, if_false]
    cases hv : dget? st.relatedFieldIdArea n with
    | none => rfl
    | some v =>
      rw [dhas, hv] at hh
      cases hh
  · simp only [if_true]
    exact dget?_ddel_self _ n hnd

/-! ### Heap lemmas for the resolve-defaults embedding -/

theorem heapGet_oob : ∀ (h : Heap) (r : Nat), h.length ≤ r → heapGet h r = .datum 0 := by
  intro h
  induction h with
  | nil => intro r _; cases r <;> rfl
  | cons o rest ih =>
    intro r hr
    cases r with
    | zero => simp at hr
    | succ r2 =>
      simp only [List.length_cons, Nat.succ_le_succ_iff] at hr
      exact ih r2 hr

theorem heapGet_strSet_lt (h : Heap) (r : Nat) (s : List String)
    (hs : heapGet h r = .strSet s) : r < h.length := by
  by_contra hge
  rw [heapGet_oob h r (Nat.le_of_not_lt hge)] at hs
  cases hs

theorem heapSet_length : ∀ (h : Heap) (r : Nat) (o : HObj),
    (heapSet h r o).length = h.length := by
  intro h
  induction h with
  | nil => intro r o; rfl
  | cons x rest ih =>
    intro r o
    cases r with
    | zero => rfl
    | succ r2 => simp [heapSet, ih r2 o]

theorem heapGet_heapSet_self : ∀ (h : Heap) (r : Nat) (o : HObj),
    r < h.length → heapGet (heapSet h r o) r = o := by
  intro h
  induction h with
  | nil => intro r o hr; simp at hr
  | cons x rest ih =>
    intro r o hr
    cases r with
    | zero => rfl
    | succ r2 =>
      simp only [List.length_cons, Nat.succ_lt_succ_iff] at hr
      exact ih r2 o hr

theorem heapGet_append_lt : ∀ (h t : Heap) (r : Nat),
    r < h.length → heapGet (h ++ t) r = heapGet h r := by
  intro h
  induction h with
  | nil => intro t r hr; simp at hr
  | cons x rest ih =>
    intro t r hr
    cases r with
    | zero => rfl
    | succ r2 =>
      simp only [List.length_cons, Nat.succ_lt_succ_iff] at hr
      exact ih t r2 hr

theorem heapGet_append_self : ∀ (h : Heap) (o : HObj),
    heapGet (h ++ [o]) h.length = o := by
  intro h o
  induction h with
  | nil => rfl
  | cons x rest ih => simpa using ih

theorem contains_append_singleton (s : List String) (n x : String) :
    (s ++ [n]).contains x = (s.contains x || x == n) := by
  induction s with
  | nil =>
    simp only [List.nil_append, List.contains_cons, List.contains_nil,
      Bool.or_false, Bool.false_or]
  | cons b rest ih =>
    simp only [List.cons_append, List.contains_cons, ih, Bool.or_assoc]

theorem contains_setInsert (s : List String) (n x : String) :
    (setInsert s n).contains x = (s.contains x || x == n) := by
  unfold setInsert
  cases hc : s.contains n
  · simp only [Bool.false_eq_true, if_false]
    exact contains_append_singleton s n x
  · simp only [if_true]
    cases hxn : (x == n)
    · simp
    · have : x = n := by simpa [beq_iff_eq] using hxn
      subst this
      rw [hc]
      simp

theorem contains_foldl_setInsert : ∀ (names s : List String) (x : String),
    (names.foldl setInsert s).contains x = (s.contains x || names.contains x) := by
  intro names
  induction names with
  | nil => intro s x; simp
  | cons n rest ih =>
    intro s x
    simp only [List.foldl_cons, List.contains_cons]
    rw [ih (setInsert s n) x, contains_setInsert]
    cases (s.contains x) <;> cases (x == n) <;> cases (rest.contains x) <;> rfl

theorem resolve_copy_step_optionsRef (r : Nat) (acc : Heap × FieldObj)
    (kv : String × AttrV) :
    (resolve_copy_step r acc kv).2.optionsRef = acc.2.optionsRef := by
  unfold resolve_copy_step
  split
  · rfl
  · split
    · rfl
    · split
      · simp [attrSet]
      · rfl

theorem copy_fold_optionsRef (r : Nat) :
    ∀ (l : List (String × AttrV)) (acc : Heap × FieldObj),
      (l.foldl (resolve_copy_step r) acc).2.optionsRef = acc.2.optionsRef := by
  intro l
  induction l with
  | nil => intro acc; rfl
  | cons kv rest ih =>
    intro acc
    simp only [List.foldl_cons]
    rw [ih (resolve_copy_step r acc kv)]
    exact resolve_copy_step_optionsRef r acc kv

theorem resolve_copy_step_heap (r : Nat) (acc : Heap × FieldObj)
    (kv : String × AttrV) :
    ∃ t, (resolve_copy_step r acc kv).1 = acc.1 ++ t := by
  unfold resolve_copy_step
  split
  · exact ⟨[], by simp⟩
  · split
    · exact ⟨[], by simp⟩
    · split
      · unfold copyAttr
        cases kv.2 with
        | ref q => exact ⟨[heapGet acc.1 q], rfl⟩
        | defaultSentinel => exact ⟨[], by simp⟩
        | pyNone => exact ⟨[], by simp⟩
        | imm t2 => exact ⟨[], by simp⟩
      · exact ⟨[], by simp⟩

theorem copy_fold_heap (r : Nat) :
    ∀ (l : List (String × AttrV)) (acc : Heap × FieldObj),
      ∃ t, (l.foldl (resolve_copy_step r) acc).1 = acc.1 ++ t := by
  intro l
  induction l with
  | nil => intro acc; exact ⟨[], by simp⟩
  | cons kv rest ih =>
    intro acc
    obtain ⟨t1, ht1⟩ := resolve_copy_step_heap r acc kv
    obtain ⟨t2, ht2⟩ := ih (resolve_copy_step r acc kv)
    refine ⟨t1 ++ t2, ?_⟩
    simp only [List.foldl_cons]
    rw [ht2, ht1, List.append_assoc]


/-!
## The verified statements

Each statement below settles one sentence of the specification against the
embedded source.  Counterexample statements exhibit concrete runs of the
embedded code; the main statements establish the corrected (or confirmed)
behaviour.
-/

/-- C1: the specification says writing the `Null` sentinel to a
non-nullable field raises a fatal type error.  In the source the
`XModelError` is constructed at model.py lines 472-478 but never raised:
on the non-nullable `int` field of `cfg_non_nullable_int` the write
succeeds and the `Null` sentinel is silently stored on the instance. -/
theorem C1_null_write_stored :
    ((get_field cfg_non_nullable_int "non_nullable").all fun f => !f.nullable) =
      true ∧
    setattrModel 1 cfg_non_nullable_int {} "non_nullable" PyVal.null =
      .ok { attrs := [("non_nullable", PyVal.null)] } :=
  ⟨rfl, rfl⟩

/-- C2 counterexample: resolving `child_field_obj` against
`parent_field_obj` does not copy the parent's explicitly-set set.  The
child ends up holding the parent's own set object (heap address 0), and
that object — the parent's `_options_explicitly_set_by_user`, holding
`["default"]` beforehand — is mutated in place to also hold the child's
explicit name `converter`. -/
theorem C2_counterexample :
    parent_field_obj.optionsRef = some 0 ∧
    heapGet heap0 0 = .strSet ["default"] ∧
    resolve_defaults heap0 child_field_obj (some parent_field_obj) =
      ([.strSet ["default", "converter"]],
       { attrs := [("default", .imm 1), ("converter", .imm 2)],
         optionsRef := some 0 }) :=
  ⟨rfl, rfl, rfl⟩

/-- C2 (corrected): `Field.resolve_defaults` stores the parent's
explicitly-set set on the child by reference — the child's `optionsRef` is
the parent's heap address, and the shared set object ends up holding the
union of the parent's names and the child's explicit names (so the parent's
own set is mutated).  Attribute values copied from the parent are, as the
specification says, independent copies: `copy.copy` of a mutable value
yields a fresh heap cell with equal contents at a new address. -/
theorem C2_options_set_shared (h : Heap) (child parent : FieldObj) (r : Nat)
    (s : List String)
    (hpr : parent.optionsRef = some r)
    (hs : heapGet h r = .strSet s) :
    (resolve_defaults h child (some parent)).2.optionsRef = some r ∧
    (∀ x, strSetMem (heapGet (resolve_defaults h child (some parent)).1 r) x =
      (s.contains x || (explicit_attr_names child).contains x)) ∧
    (∀ (h2 : Heap) (q : Nat), q < h2.length →
      (copyAttr h2 (.ref q)).2 = AttrV.ref h2.length ∧
      heapGet (copyAttr h2 (.ref q)).1 h2.length = heapGet h2 q ∧
      h2.length ≠ q) := by
  have hrd : resolve_defaults h child (some parent) =
      parent.attrs.foldl (resolve_copy_step r)
        (heapSet h r (.strSet ((explicit_attr_names child).foldl setInsert s)),
         { child with optionsRef := some r }) := by
    unfold resolve_defaults
    simp [hpr, hs]
  rw [hrd]
  refine ⟨?_, ?_, ?_⟩
  · rw [copy_fold_optionsRef]
  · intro x
    obtain ⟨t, ht⟩ := copy_fold_heap r parent.attrs
      (heapSet h r (.strSet ((explicit_attr_names child).foldl setInsert s)),
       { child with optionsRef := some r })
    rw [ht]
    dsimp only
    have hlt : r < h.length := heapGet_strSet_lt h r s hs
    have hlen : r < (heapSet h r
        (HObj.strSet ((explicit_attr_names child).foldl setInsert s))).length := by
      rw [heapSet_length]
      exact hlt
    rw [heapGet_append_lt _ t r hlen, heapGet_heapSet_self h r _ hlt]
    exact contains_foldl_setInsert (explicit_attr_names child) s x
  · intro h2 q hq
    refine ⟨rfl, ?_, ?_⟩
    · exact heapGet_append_self h2 (heapGet h2 q)
    · exact (Nat.ne_of_lt hq).symm

/-- Witness for C2: on the concrete parent/child pair the child aliases the
parent's set at address 0, and the shared set now also contains the child's
explicit name `converter`. -/
theorem C2_options_set_shared_witness :
    (resolve_defaults heap0 child_field_obj (some parent_field_obj)).2.optionsRef =
      some 0 ∧
    strSetMem (heapGet
      (resolve_defaults heap0 child_field_obj (some parent_field_obj)).1 0)
      "converter" = true := by
  obtain ⟨h1, h2, -⟩ :=
    C2_options_set_shared heap0 child_field_obj parent_field_obj 0 ["default"]
      rfl rfl
  refine ⟨h1, ?_⟩
  rw [h2 "converter"]
  rfl

/-- C3 counterexample: importing the empty document into a model whose
only field carries a declared default leaves the instance with a recorded
original document, yet the defaulted field — untouched by the import —
is reported by the changes-only export. -/
theorem C3_counterexample :
    update_from_json 1 cfg_int_default {} [] =
      .ok { attrs := [], lastOriginalUpdateJson := some [],
            relatedFieldIdArea := [] } ∧
    jsonModel cfg_int_default
      { attrs := [], lastOriginalUpdateJson := some [],
        relatedFieldIdArea := [] } true =
      .ok (some [("f", PyVal.int 5)]) :=
  ⟨rfl, rfl⟩

/-- Witness for C3: importing a document that does assign the field leaves
a state whose changes-only export is the absent document. -/
theorem C3_witness :
    ∃ st1,
      update_from_json 2 cfg_int_default {} [("f", PyVal.int 7)] = .ok st1 ∧
      jsonModel cfg_int_default st1 true = .ok Option.none := by
  refine changes_only_after_import 1 cfg_int_default {} [("f", PyVal.int 7)]
    (fun _ => PyVal.int 7) ?_ ?_ ?_
  · intro f hf
    simp only [cfg_int_default, List.mem_singleton] at hf
    subst hf
    exact ⟨rfl, rfl, by decide, rfl, rfl, rfl,
      fun g hg => absurd hg (List.not_mem_nil g), rfl, Or.inl ⟨rfl, rfl, 7, rfl⟩⟩
  · decide
  · show (dkeys [("f", PyVal.int 7)]).Nodup
    decide

/-- C4 counterexample: the from-wire int converter on a nullable field maps
the empty string to the integer `0`, not to the `Null` sentinel
(`ConvertBasicInt.convert_basic_value`, converters.py lines 138-143). -/
theorem C4_counterexample :
    converterCall .basicInt true .from_json (.str "") = .ok (.int 0) ∧
    PyVal.isNull (.int 0) = false :=
  ⟨rfl, rfl⟩

/-- C4 (corrected): in the from-wire direction a nullable field's basic
converter maps `None` and `Null` to the `Null` sentinel, but maps the empty
string to the type-specific empty value `0`; the empty-string-to-`Null`
coercion instead lives in `BaseModel.__setattr__` (model.py lines 449-455),
which turns a falsy string written to a nullable non-`str` field into
`Null` before storing it. -/
theorem C4_empty_string_to_null (k : ConvKind) (v : PyVal)
    (hv : (v.isNone || v.isNull) = true) :
    converterCall k true .from_json v = .ok PyVal.null ∧
    convert_basic_value .basicInt (.str "") = .ok (.int 0) ∧
    setattrModel 1 cfg_nullable_int {} "f" (.str "") =
      .ok { attrs := [("f", PyVal.null)] } := by
  refine ⟨?_, rfl, rfl⟩
  simp [converterCall, convert_basic_call, hv]

/-- Witness for C4: the `Null` sentinel itself converts to `Null`, while
the empty string becomes `0` at the converter and `Null` at the
attribute write. -/
theorem C4_empty_string_to_null_witness :
    converterCall .basicInt true .from_json PyVal.null = .ok PyVal.null ∧
    convert_basic_value .basicInt (.str "") = .ok (.int 0) ∧
    setattrModel 1 cfg_nullable_int {} "f" (.str "") =
      .ok { attrs := [("f", PyVal.null)] } :=
  C4_empty_string_to_null .basicInt PyVal.null rfl

/-- C5 counterexample: with a pending related id recorded for `child`,
writing the `Null` sentinel directly to the `child` attribute stores `Null`
but leaves the pending related id in place (the write reaches the
unraised-error fall-through of `__setattr__` instead of the reset
branch). -/
theorem C5_counterexample :
    setattrModel 2 cfg_child {} "child_id" (.int 5) =
      .ok { relatedFieldIdArea := [("child", PyVal.int 5)] } ∧
    setattrModel 2 cfg_child { relatedFieldIdArea := [("child", PyVal.int 5)] }
      "child" PyVal.null =
      .ok { attrs := [("child", PyVal.null)],
            relatedFieldIdArea := [("child", PyVal.int 5)] } :=
  ⟨rfl, rfl⟩

/-- C5 (corrected): writing a concrete related object to the relationship
attribute clears any pending related id (the type-match branch of
`__setattr__` calls `reset_related_field_id_if_exists`), but writing the
`Null` sentinel does not: the `Null` write falls through the unraised-error
branch, stores `Null` on the attribute and leaves the pending-related-id
store untouched. -/
theorem C5_null_write_keeps_pending (st : ModelState) (hasId : Bool)
    (idv : PyVal) (hnd : keysNodup st.relatedFieldIdArea) :
    (∃ st2,
      setattrModel 1 cfg_child st "child" (.model "Child" hasId idv) =
        .ok st2 ∧
      st2.attrs = dset st.attrs "child" (.model "Child" hasId idv) ∧
      dget? st2.relatedFieldIdArea "child" = Option.none) ∧
    (∃ st3,
      setattrModel 1 cfg_child st "child" PyVal.null = .ok st3 ∧
      st3.attrs = dset st.attrs "child" PyVal.null ∧
      st3.relatedFieldIdArea = st.relatedFieldIdArea) := by
  have hobj : setattrModel 1 cfg_child st "child" (.model "Child" hasId idv) =
      .ok { reset_related_field_id_if_exists st "child" with
            attrs := dset (reset_related_field_id_if_exists st "child").attrs
              "child" (.model "Child" hasId idv) } := rfl
  have hnull : setattrModel 1 cfg_child st "child" PyVal.null =
      .ok { st with attrs := dset st.attrs "child" PyVal.null } := rfl
  refine ⟨⟨_, hobj, ?_, ?_⟩, ⟨_, hnull, rfl, rfl⟩⟩
  · show dset (reset_related_field_id_if_exists st "child").attrs "child"
        (.model "Child" hasId idv) =
      dset st.attrs "child" (.model "Child" hasId idv)
    rw [reset_attrs]
  · show dget? (reset_related_field_id_if_exists st "child").relatedFieldIdArea
        "child" = Option.none
    exact reset_area_lookup st "child" hnd

/-- Witness for C5: starting from a state with a pending related id `5`,
writing a concrete `Child` object clears the pending id. -/
theorem C5_null_write_keeps_pending_witness :
    ∃ st2,
      setattrModel 1 cfg_child { relatedFieldIdArea := [("child", PyVal.int 5)] }
        "child" (.model "Child" true (PyVal.int 7)) = .ok st2 ∧
      st2.attrs = dset [] "child" (.model "Child" true (PyVal.int 7)) ∧
      dget? st2.relatedFieldIdArea "child" = Option.none :=
  (C5_null_write_keeps_pending { relatedFieldIdArea := [("child", PyVal.int 5)] }
    true (PyVal.int 7)
    (by show (dkeys [("child", PyVal.int 5)]).Nodup; decide)).1

/-- C6 counterexample: in the chain `C` (included with `A`), `A` (included
with `B`), `B`, after importing `{C:1, A:2, B:3}` and changing only `B`,
the changes-only export keeps `A` (rescued because its dependency `B` is
kept) but still pops `C`, even though `C`'s `include_with_fields` names
`A`, which is itself being kept: the rescue loop is a single
declaration-order pass, and `C` is processed before `A` is rescued. -/
theorem C6_counterexample :
    cfg_chain.map FieldE.include_with_fields = [["A"], ["B"], []] ∧
    update_from_json 1 cfg_chain {}
      [("C", PyVal.int 1), ("A", PyVal.int 2), ("B", PyVal.int 3)] =
      .ok { attrs := [("C", PyVal.int 1), ("A", PyVal.int 2), ("B", PyVal.int 3)],
            lastOriginalUpdateJson :=
              some [("C", PyVal.int 1), ("A", PyVal.int 2), ("B", PyVal.int 3)],
            relatedFieldIdArea := [] } ∧
    setattrModel 1 cfg_chain
      { attrs := [("C", PyVal.int 1), ("A", PyVal.int 2), ("B", PyVal.int 3)],
        lastOriginalUpdateJson :=
          some [("C", PyVal.int 1), ("A", PyVal.int 2), ("B", PyVal.int 3)],
        relatedFieldIdArea := [] } "B" (PyVal.int 4) =
      .ok { attrs := [("C", PyVal.int 1), ("A", PyVal.int 2), ("B", PyVal.int 4)],
            lastOriginalUpdateJson :=
              some [("C", PyVal.int 1), ("A", PyVal.int 2), ("B", PyVal.int 3)],
            relatedFieldIdArea := [] } ∧
    jsonModel cfg_chain
      { attrs := [("C", PyVal.int 1), ("A", PyVal.int 2), ("B", PyVal.int 4)],
        lastOriginalUpdateJson :=
          some [("C", PyVal.int 1), ("A", PyVal.int 2), ("B", PyVal.int 3)],
        relatedFieldIdArea := [] } true =
      .ok (some [("A", PyVal.int 2), ("B", PyVal.int 4)]) :=
  ⟨rfl, rfl, rfl, rfl⟩

/-- C6 (corrected): the rescue is reliable only for a direct dependency.
For the pair `A` (included with `B`), `B`: importing `{A:a, B:b}` and then
changing `B` to a different value makes the changes-only export contain
both `A` and `B`. -/
theorem C6_direct_dependency_kept (a b b2 : Int) (hne : b2 ≠ b) :
    ∃ st1 st2,
      update_from_json 1 cfg_pair {}
        [("A", PyVal.int a), ("B", PyVal.int b)] = .ok st1 ∧
      setattrModel 1 cfg_pair st1 "B" (PyVal.int b2) = .ok st2 ∧
      jsonModel cfg_pair st2 true =
        .ok (some [("A", PyVal.int a), ("B", PyVal.int b2)]) := by
  have hbeq : (b2 == b) = false := by
    simp [hne]
  refine ⟨{ attrs := [("A", PyVal.int a), ("B", PyVal.int b)],
            lastOriginalUpdateJson := some [("A", PyVal.int a), ("B", PyVal.int b)],
            relatedFieldIdArea := [] },
          { attrs := [("A", PyVal.int a), ("B", PyVal.int b2)],
            lastOriginalUpdateJson := some [("A", PyVal.int a), ("B", PyVal.int b)],
            relatedFieldIdArea := [] }, rfl, rfl, ?_⟩
  have hoA : get_old_json_value
      { attrs := [("A", PyVal.int a), ("B", PyVal.int b2)],
        lastOriginalUpdateJson := some [("A", PyVal.int a), ("B", PyVal.int b)],
        relatedFieldIdArea := [] } "A" PyTy.intTy = some (PyVal.int a) := rfl
  have hoB : get_old_json_value
      { attrs := [("A", PyVal.int a), ("B", PyVal.int b2)],
        lastOriginalUpdateJson := some [("A", PyVal.int a), ("B", PyVal.int b)],
        relatedFieldIdArea := [] } "B" PyTy.intTy = some (PyVal.int b) := rfl
  have hsiA : should_include_field_in_json (PyVal.int a) (PyVal.int a) = false := by
    simp [should_include_field_in_json, pyEq_int]
  have hsiB : should_include_field_in_json (PyVal.int b2) (PyVal.int b) = true := by
    simp [should_include_field_in_json, pyEq_int, hbeq]
  have hdiff : fields_to_pop_diff
      { attrs := [("A", PyVal.int a), ("B", PyVal.int b2)],
        lastOriginalUpdateJson := some [("A", PyVal.int a), ("B", PyVal.int b)],
        relatedFieldIdArea := [] }
      [("A", PyVal.int a), ("B", PyVal.int b2)] [] = ["A"] := by
    simp only [fields_to_pop_diff, PyVal.typeOf, hoA, hoB, hsiA, hsiB,
      Bool.false_eq_true, if_false, if_true, List.nil_append]
  have hpops : fields_to_pop_for_json
      { attrs := [("A", PyVal.int a), ("B", PyVal.int b2)],
        lastOriginalUpdateJson := some [("A", PyVal.int a), ("B", PyVal.int b)],
        relatedFieldIdArea := [] }
      [("A", PyVal.int a), ("B", PyVal.int b2)] cfg_pair = [] := by
    simp only [fields_to_pop_for_json, hdiff]
    rfl
  have hp1 : json_pass1 cfg_pair
      { attrs := [("A", PyVal.int a), ("B", PyVal.int b2)],
        lastOriginalUpdateJson := some [("A", PyVal.int a), ("B", PyVal.int b)],
        relatedFieldIdArea := [] } = .ok [] := rfl
  have hp2 : json_pass2 cfg_pair
      { attrs := [("A", PyVal.int a), ("B", PyVal.int b2)],
        lastOriginalUpdateJson := some [("A", PyVal.int a), ("B", PyVal.int b)],
        relatedFieldIdArea := [] } [] =
      .ok [("A", PyVal.int a), ("B", PyVal.int b2)] := rfl
  simp only [jsonModel, Bind.bind, Except.bind, hp1, hp2, hpops, List.foldl_nil]
  rfl

/-- Witness for C6: the concrete pair import `{A:1, B:2}` followed by the
write `B := 3`. -/
theorem C6_direct_dependency_kept_witness :
    ∃ st1 st2,
      update_from_json 1 cfg_pair {}
        [("A", PyVal.int 1), ("B", PyVal.int 2)] = .ok st1 ∧
      setattrModel 1 cfg_pair st1 "B" (PyVal.int 3) = .ok st2 ∧
      jsonModel cfg_pair st2 true =
        .ok (some [("A", PyVal.int 1), ("B", PyVal.int 3)]) :=
  C6_direct_dependency_kept 1 2 3 (by decide)

/-- C7: on an instance that has never received an imported document
(`last_original_update_json` is `None`), the changes-only export falls back
to the full export: `BaseApi.json` negates `only_include_changes` in that
case (api.py lines 574-576), so the two calls return the same document. -/
theorem C7_no_import_full_export (cfg : Structure) (st : ModelState)
    (h : st.lastOriginalUpdateJson = Option.none) :
    jsonModel cfg st true = jsonModel cfg st false := by
  simp [jsonModel, h]

/-- Witness for C7: a freshly constructed instance of the defaulted-int
model exports identically with and without `only_include_changes`. -/
theorem C7_no_import_full_export_witness :
    ({} : ModelState).lastOriginalUpdateJson = Option.none ∧
    jsonModel cfg_int_default {} true = jsonModel cfg_int_default {} false :=
  ⟨rfl, C7_no_import_full_export cfg_int_default {} rfl⟩

/-- C8 counterexample: the set-to-list normalization of `BaseApi.json`
(api.py lines 714-718) only rewrites top-level values.  A set-typed field
whose `json_path` places it inside a nested sub-document is exported as a
set: the full export of `st_nested_set` keeps `{"b": {1, 2}}` inside the
`"a"` sub-document while the top-level set at `"t"` becomes a list. -/
theorem C8_counterexample :
    jsonModel cfg_nested_set st_nested_set false =
      .ok (some [("a", PyVal.dict [("b", PyVal.set [PyVal.int 1, PyVal.int 2])]),
                 ("t", PyVal.list [PyVal.int 3])]) ∧
    PyVal.isSet (PyVal.set [PyVal.int 1, PyVal.int 2]) = true :=
  ⟨rfl, rfl⟩

/-- C8 (corrected): every document produced by the export has no set value
at any top-level key (the final loop of `BaseApi.json` converts those to
lists); the guarantee does not extend below the top level. -/
theorem C8_sets_to_lists_top_level (cfg : Structure) (st : ModelState)
    (oic : Bool) (j : Doc) (h : jsonModel cfg st oic = .ok (some j)) :
    ∀ kv ∈ j, kv.2.isSet = false := by
  obtain ⟨j0, rfl⟩ := jsonModel_some_shape cfg st oic j h
  exact set_to_list_no_sets j0

/-- Witness for C8: in the export of `st_nested_set` the top-level value at
`"t"` is list-typed. -/
theorem C8_sets_to_lists_top_level_witness :
    (("t", PyVal.list [PyVal.int 3]) : String × PyVal).2.isSet = false :=
  C8_sets_to_lists_top_level cfg_nested_set st_nested_set false
    [("a", PyVal.dict [("b", PyVal.set [PyVal.int 1, PyVal.int 2])]),
     ("t", PyVal.list [PyVal.int 3])] rfl
    ("t", PyVal.list [PyVal.int 3]) (by simp)

/-- C9 counterexample: the None-omitted/Null-emitted shape does not hold
for every export.  After importing `{"f": null}` into the nullable-int
model the field holds the `Null` sentinel, yet the changes-only export
returns the absent document — no key at all is emitted for the
`Null`-valued field. -/
theorem C9_counterexample :
    update_from_json 1 cfg_nullable_int {} [("f", PyVal.none)] =
      .ok { attrs := [("f", PyVal.null)],
            lastOriginalUpdateJson := some [("f", PyVal.none)],
            relatedFieldIdArea := [] } ∧
    jsonModel cfg_nullable_int
      { attrs := [("f", PyVal.null)],
        lastOriginalUpdateJson := some [("f", PyVal.none)],
        relatedFieldIdArea := [] } true =
      .ok Option.none :=
  ⟨rfl, rfl⟩

/-- C9 (corrected): in the full export, a field whose serialized value is
`None` produces no key at all (`set_value_into_json_dict` skips it), and a
field whose serialized value is the `Null` sentinel is emitted as an
explicit document-level null; the changes-only export may drop either. -/
theorem C9_none_omitted_null_emitted (cfg : Structure) (st : ModelState)
    (hsh : plain_shape cfg) (hnd : (cfg.map FieldE.name).Nodup)
    (W : FieldE → PyVal)
    (hW : ∀ g ∈ cfg, ∃ v, getattrModel cfg st g.name = .ok v ∧
      field_to_json_value g v = .ok (W g)) :
    ∃ j, jsonModel cfg st false = .ok (some j) ∧
      ∀ f ∈ cfg,
        ((W f).isNone = true → dget? j f.name = Option.none) ∧
        ((W f).isNull = true → dget? j f.name = some PyVal.none) := by
  refine ⟨_, jsonModel_full_shape cfg st hsh W hW, ?_⟩
  intro f hf
  have hl := fold_set_value_lookup W f cfg hnd hf []
  constructor
  · intro hn
    rw [set_to_list_lookup, hl]
    cases hWf : W f
    case none => rfl
    all_goals rw [hWf] at hn
    all_goals simp [PyVal.isNone] at hn
  · intro hn
    rw [set_to_list_lookup, hl]
    cases hWf : W f
    case null => rfl
    all_goals rw [hWf] at hn
    all_goals simp [PyVal.isNull] at hn

/-- Witness for C9: the full export of the nullable-int model holding the
`Null` sentinel emits the key `"f"` with an explicit null. -/
theorem C9_none_omitted_null_emitted_witness :
    ∃ j, jsonModel cfg_nullable_int { attrs := [("f", PyVal.null)] } false =
        .ok (some j) ∧ dget? j "f" = some PyVal.none := by
  have hsh : plain_shape cfg_nullable_int := by
    intro f hf
    simp only [cfg_nullable_int, List.mem_singleton] at hf
    subst hf
    exact ⟨rfl, rfl, by decide, rfl, rfl, rfl⟩
  have hW : ∀ g ∈ cfg_nullable_int, ∃ v,
      getattrModel cfg_nullable_int { attrs := [("f", PyVal.null)] } g.name =
        .ok v ∧
      field_to_json_value g v = .ok ((fun _ => PyVal.null) g) := by
    intro g hg
    simp only [cfg_nullable_int, List.mem_singleton] at hg
    subst hg
    exact ⟨PyVal.null, rfl, rfl⟩
  obtain ⟨j, hj, hall⟩ := C9_none_omitted_null_emitted cfg_nullable_int
    { attrs := [("f", PyVal.null)] } hsh (by decide) (fun _ => PyVal.null) hW
  exact ⟨j, hj, (hall
    { name := "f", type_hint := .tint, nullable := true, json_path := "f",
      converter := some .basicInt } (List.mem_singleton.mpr rfl)).2 rfl⟩

/-- C10: model equality and hashing are identity based.  `a == b` holds
exactly when `a` and `b` are the same object; two distinct instances
compare unequal no matter how their stored field values (`attrsOf`)
compare; and equal instances hash alike (`__hash__` is `id(self)`). -/
theorem C10_identity_equality (attrsOf : PyObj → Doc) (a b : PyObj) :
    (baseModelEq a b = true ↔ a = b) ∧
    (attrsOf a = attrsOf b → a ≠ b → baseModelEq a b = false) ∧
    (baseModelEq a b = true → baseModelHash a = baseModelHash b) := by
  refine ⟨?_, ?_, ?_⟩
  · simp [baseModelEq]
  · intro _ hne
    simp [baseModelEq, hne]
  · intro h
    have hab : a = b := by simpa [baseModelEq] using h
    rw [hab]

/-- Witness for C10: two distinct addresses with identical (empty) stored
field values. -/
theorem C10_identity_equality_witness :
    (baseModelEq ⟨0⟩ ⟨1⟩ = true ↔ (⟨0⟩ : PyObj) = ⟨1⟩) ∧
    ((fun _ => ([] : Doc)) (⟨0⟩ : PyObj) = (fun _ => ([] : Doc)) (⟨1⟩ : PyObj) →
      (⟨0⟩ : PyObj) ≠ ⟨1⟩ → baseModelEq ⟨0⟩ ⟨1⟩ = false) ∧
    (baseModelEq ⟨0⟩ ⟨1⟩ = true → baseModelHash ⟨0⟩ = baseModelHash ⟨1⟩) :=
  C10_identity_equality (fun _ => []) ⟨0⟩ ⟨1⟩

end Xm
